import Mathlib

/-
Shallow embedding of the core of the `zebra` JavaScript-engine fuzzer
(a Rust program) together with proofs about its type lattice, its
incremental analyzers, its runtime catalogue lookup, its RNG and its
REPL retry logic.

Machine integers are embedded as `Nat` (for the unsigned bitsets `u8`,
`u64`) and `Int` (for `isize`), with wrap-around made explicit via
`% 2^64` where the Rust code relies on wrapping semantics.  Fallible or
panicking Rust code is embedded with `Option`: `none` models a panic or
an early `None` return, as noted at each definition.
-/

namespace Zebra

/-! ## `src/ir/codeanalysis/types.rs` — the type lattice

`Shape` is a `u64` bitset (bitflags).  All non-`None` shapes except
`Static` include the `Object` bit.  `Any` is `u64::MAX`. -/

namespace Shape

def None : Nat := 0
def Static : Nat := 1 <<< 0
def Object : Nat := 1 <<< 1
def Array : Nat := 1 <<< 2 ||| Object
def ArrayBuffer : Nat := 1 <<< 3 ||| Object
def TypedArray : Nat := 1 <<< 4 ||| Object
def Reflect : Nat := 1 <<< 5 ||| Object
def Math : Nat := 1 <<< 6 ||| Object
def String : Nat := 1 <<< 7 ||| Object
def Custom : Nat := 1 <<< 8 ||| Object
def Any : Nat := 2 ^ 64 - 1

end Shape

/-- Bitwise complement on a `u64` value (`!x` in Rust); for bitflags
`Shape`, `Not` is `all() & !bits` and `all() = Any = u64::MAX`, so both
coincide with xor against the full mask. -/
def complU64 (x : Nat) : Nat := Shape.Any ^^^ x

/-- Rust `Shape::is_static`: `bits & Static != 0`. -/
def Shape.is_static (s : Nat) : Bool := s &&& Shape.Static != 0

/-- Rust `Shape::fetch_clear_static`: returns whether the `Static` bit was
set, together with the shape with that bit cleared
(`self.bits &= !Shape::Static.bits`). -/
def Shape.fetch_clear_static (s : Nat) : Bool × Nat :=
  (Shape.is_static s, s &&& complU64 Shape.Static)

/-- Rust `Shape::is_pure_object`: `(self & !Object).bits == 0`. -/
def Shape.is_pure_object (s : Nat) : Bool := s &&& complU64 Shape.Object == 0

/-- Rust `Shape::contains` from the `bitflags` crate:
`(self.bits & other.bits) == other.bits`. -/
def Shape.shape_contains (s other : Nat) : Bool := s &&& other == other

/-! `PType` is a `u8` bitset. -/

namespace PType

def None : Nat := 0
def Int : Nat := 1 <<< 0
def Float : Nat := 1 <<< 1
def String : Nat := 1 <<< 2
def Bool : Nat := 1 <<< 3
def Function : Nat := 1 <<< 4
def Undefined : Nat := 1 <<< 5
def Unknown : Nat := 1 <<< 6
def Object : Nat := 1 <<< 7
def Any : Nat := 255

end PType

/-- Bitwise complement on a `u8` bitset (`!x`; for bitflags `PType`,
`all() = Any = u8::MAX`). -/
def complU8 (x : Nat) : Nat := PType.Any ^^^ x

/-- Rust `Type` in `types.rs`: a primitive-type bitset and a shape bitset.
(Named `Ty` because `Type` is a Lean keyword.) -/
structure Ty where
  ptype : Nat
  shape : Nat
deriving DecidableEq, Repr

namespace Ty

/-- Rust `Type::new`. -/
def new (ptype shape : Nat) : Ty := ⟨ptype, shape⟩

/-- Rust `Type::default()`: an unknown type. -/
def default : Ty := ⟨PType.Unknown, Shape.None⟩

/-- Rust `Type::basic`. -/
def basic (ptype : Nat) : Ty := ⟨ptype, Shape.None⟩

/-- Rust `Type::obj`. -/
def obj (shape : Nat) : Ty := ⟨PType.Object, shape⟩

def is_int (t : Ty) : Bool := t.ptype &&& PType.Int == PType.Int
def is_float (t : Ty) : Bool := t.ptype &&& PType.Float == PType.Float
def is_bool (t : Ty) : Bool := t.ptype &&& PType.Bool == PType.Bool
def is_string (t : Ty) : Bool := t.ptype &&& PType.String == PType.String
def is_function (t : Ty) : Bool := t.ptype &&& PType.Function == PType.Function
def is_undefined (t : Ty) : Bool := t.ptype &&& PType.Undefined == PType.Undefined
def is_unknown (t : Ty) : Bool := t.ptype &&& PType.Unknown == PType.Unknown
def is_object (t : Ty) : Bool := t.ptype &&& PType.Object == PType.Object

/-- Rust `Type::is_numeric`: the ptype bitset is exactly `Int`, exactly
`Float`, exactly `Bool` or exactly `Undefined`. -/
def is_numeric (t : Ty) : Bool :=
  t.ptype == PType.Int || t.ptype == PType.Float
    || t.ptype == PType.Bool || t.ptype == PType.Undefined

/-- Rust `Type::is_integer`. -/
def is_integer (t : Ty) : Bool := t.is_int || t.is_bool

/-- Rust `Type::contains`: do the two types intersect (with the extra shape
logic when both sides can be objects)? -/
def contains (self rhs : Ty) : Bool :=
  let result := (self.ptype &&& rhs.ptype) != 0
  if !self.is_object || !rhs.is_object then
    result
  else
    let result := ((self.ptype &&& rhs.ptype) &&& complU8 PType.Object) != 0
    if result then true
    else if rhs.shape == Shape.Any then true
    else (rhs.shape &&& self.shape) != 0

/-- Rust `impl BitOr for Type` (used for `A | B` on types). -/
def union (self rhs : Ty) : Ty :=
  ⟨self.ptype ||| rhs.ptype, self.shape ||| rhs.shape⟩

end Ty

/-! The type constants at the bottom of `types.rs`. -/

namespace types

def Int : Ty := ⟨PType.Int, Shape.None⟩
def Float : Ty := ⟨PType.Float, Shape.None⟩
def String : Ty := ⟨PType.String, Shape.String⟩
def Bool : Ty := ⟨PType.Bool, Shape.None⟩
def Function : Ty := ⟨PType.Function, Shape.None⟩
def Undefined : Ty := ⟨PType.Undefined, Shape.None⟩
def Unknown : Ty := ⟨PType.Unknown, Shape.None⟩
def Object : Ty := ⟨PType.Object, Shape.Any⟩
def Any : Ty := ⟨PType.Any, Shape.Any⟩
def Array : Ty := ⟨PType.Object, Shape.Array⟩
def TypedArray : Ty := ⟨PType.Object, Shape.TypedArray⟩

end types

/-! Signatures (`types.rs`, lower half). -/

/-- Rust `FunctionSignature`. -/
structure FunctionSignature where
  num_inputs : Nat
  input_types : List Ty
  is_constructing : Bool
  output_type : Ty
  output_shape : Option Nat
deriving DecidableEq, Repr

/-- Rust `FunctionSignature::new`. -/
def FunctionSignature.new (num_inputs : Nat) : FunctionSignature :=
  ⟨num_inputs, List.replicate num_inputs Ty.default, true, Ty.default, none⟩

/-- Rust `FunctionSignature::args_count`. -/
def FunctionSignature.args_count (s : FunctionSignature) : Nat := s.num_inputs

/-- Rust `MethodArg`: fixed, optional or repeated (with a cap) argument. -/
inductive MethodArg where
  | Type (t : Ty)
  | Optional (t : Ty)
  | Repeat (cap : Nat) (t : Ty)
deriving DecidableEq, Repr

/-- Rust `MethodSignature`. -/
structure MethodSignature where
  name : String
  this_type : Ty
  input_types : List MethodArg
  output_type : Ty
deriving DecidableEq, Repr

/-- Rust `MethodSignature::new`. -/
def MethodSignature.new (name : String) (this_type : Ty)
    (input_types : List MethodArg) (output_type : Ty) : MethodSignature :=
  ⟨name, this_type, input_types, output_type⟩

/-- Rust `MethodSignature::min_args_count`. -/
def MethodSignature.min_args_count (m : MethodSignature) : Nat :=
  m.input_types.length

/-- Rust `MethodSignature::input_type_at` (panics when out of range; the
analyzer only calls it at `idx % min_args_count`). -/
def MethodSignature.input_type_at (m : MethodSignature) (idx : Nat) :
    Option MethodArg :=
  m.input_types.get? idx

/-- Rust `ConstructorType`: `Callable` or `NonCallable`. -/
inductive ConstructorType where
  | Callable (ms : MethodSignature)
  | NonCallable (name : String) (t : Ty)
deriving DecidableEq, Repr

/-! ## `src/ir/operators.rs` -/

inductive BinaryOperators where
  | Add | Sub | Mul | Div | Mod | BitAnd | BitOr
  | LogicAnd | LogicOr | Xor | LShift | RShift
deriving DecidableEq, Repr

inductive UnaryOperators where
  | Inc | Dec | LogicalNot | BitwiseNot
deriving DecidableEq, Repr

inductive Comparators where
  | Equal | StrictEqual | NotEqual | LessThan
  | LessThanOrEqual | GreaterThan | GreaterThanOrEqual
deriving DecidableEq, Repr

/-! ## `src/ir/operation.rs`

The `Attributes` bitflags (`u8`). -/

namespace Attributes

def NONE : Nat := 0
def IS_BLOCK_START : Nat := 1 <<< 0
def IS_BLOCK_END : Nat := 1 <<< 1
def IS_LOOP_START : Nat := IS_BLOCK_START ||| 1 <<< 2
def IS_LOOP_END : Nat := IS_BLOCK_END ||| 1 <<< 3
def IS_PRIMITIVE : Nat := 1 <<< 4
def IS_FUNCTION_START : Nat := IS_BLOCK_START ||| 1 <<< 5
def IS_FUNCTION_END : Nat := IS_BLOCK_END ||| 1 <<< 6

end Attributes

/-- The operations of the IR, one constructor per `define!`/`impl
Operation` in `operation.rs`, carrying the static payload of the
operation.  (`LoadFloat`'s `f64` payload is omitted: floating-point
values are not modelled, and no analyzer inspects it.) -/
inductive Operation where
  | LoadInt (val : Int)
  | LoadFloat
  | LoadBool (val : Bool)
  | LoadString (val : String)
  | BinaryOp (op : BinaryOperators)
  | UnaryOp (op : UnaryOperators)
  | CompareOp (op : Comparators)
  | LoadProperty (prop : String)
  | StoreProperty (prop : String)
  | Delete (is_indexed_prop : Bool)
  | Nop
  | Copy
  | BeginIf
  | EndIf
  | EndFor
  | Break
  | Continue
  | LoadUndefined
  | EndFunctionDefinition
  | Return
  | LoadElement
  | StoreElement
  | BeginElse
  | BeginFor (step : String) (cmp : Comparators)
  | BeginFunctionDefinition (sig : FunctionSignature)
  | FunctionCall (n : Nat)
  | CreateArray (n : Nat)
  | MethodCall (sig : MethodSignature) (n : Nat)
  | LoadBuiltin (ctor : ConstructorType) (n : Nat)
  | CreateObject (props : List String)
deriving DecidableEq, Repr

namespace Operation

/-- Rust `Operation::attributes`, per the `define!` table and the manual
`impl`s in `operation.rs`. -/
def attributes : Operation → Nat
  | .LoadInt _ => Attributes.IS_PRIMITIVE
  | .LoadFloat => Attributes.IS_PRIMITIVE
  | .LoadBool _ => Attributes.IS_PRIMITIVE
  | .LoadString _ => Attributes.IS_PRIMITIVE
  | .BinaryOp _ => Attributes.NONE
  | .UnaryOp _ => Attributes.NONE
  | .CompareOp _ => Attributes.NONE
  | .LoadProperty _ => Attributes.NONE
  | .StoreProperty _ => Attributes.NONE
  | .Delete _ => Attributes.NONE
  | .Nop => Attributes.NONE
  | .Copy => Attributes.NONE
  | .BeginIf => Attributes.IS_BLOCK_START
  | .EndIf => Attributes.IS_BLOCK_END
  | .EndFor => Attributes.IS_LOOP_END
  | .Break => Attributes.NONE
  | .Continue => Attributes.NONE
  | .LoadUndefined => Attributes.IS_PRIMITIVE
  | .EndFunctionDefinition => Attributes.IS_FUNCTION_END
  | .Return => Attributes.NONE
  | .LoadElement => Attributes.NONE
  | .StoreElement => Attributes.NONE
  | .BeginElse => Attributes.IS_BLOCK_START ||| Attributes.IS_BLOCK_END
  | .BeginFor _ _ => Attributes.IS_LOOP_START
  | .BeginFunctionDefinition _ => Attributes.IS_FUNCTION_START
  | .FunctionCall _ => Attributes.NONE
  | .CreateArray _ => Attributes.NONE
  | .MethodCall _ _ => Attributes.NONE
  | .LoadBuiltin _ _ => Attributes.NONE
  | .CreateObject _ => Attributes.NONE

/-- Rust `Operation::is_loop_start`: `attributes & IS_LOOP_START == IS_LOOP_START`. -/
def is_loop_start (o : Operation) : Bool :=
  o.attributes &&& Attributes.IS_LOOP_START == Attributes.IS_LOOP_START

def is_loop_end (o : Operation) : Bool :=
  o.attributes &&& Attributes.IS_LOOP_END == Attributes.IS_LOOP_END

def is_block_start (o : Operation) : Bool :=
  o.attributes &&& Attributes.IS_BLOCK_START == Attributes.IS_BLOCK_START

def is_block_end (o : Operation) : Bool :=
  o.attributes &&& Attributes.IS_BLOCK_END == Attributes.IS_BLOCK_END

def is_function_start (o : Operation) : Bool :=
  o.attributes &&& Attributes.IS_FUNCTION_START == Attributes.IS_FUNCTION_START

def is_function_end (o : Operation) : Bool :=
  o.attributes &&& Attributes.IS_FUNCTION_END == Attributes.IS_FUNCTION_END

def is_primitive (o : Operation) : Bool :=
  o.attributes &&& Attributes.IS_PRIMITIVE == Attributes.IS_PRIMITIVE

end Operation

/-! ## `src/ir/instruction.rs`

A `Variable` is an opaque `u32` id, embedded as `Nat`. -/

/-- A Zebra IR instruction: operation plus input/output/temp variable
lists (the `idx` field is bookkeeping the analyzers never read). -/
structure Inst where
  operation : Operation
  inputs : List Nat
  outputs : List Nat
  temp : List Nat
deriving DecidableEq, Repr

/-! ## `src/ir/codeanalysis/analyzers.rs` — context analyzer

The context stack is a `Vec<u8>`; we embed it as a `List Nat` whose
head is the `Vec`'s last element (the top of the stack). -/

namespace ContextAnalyzer

def NONE : Nat := 0
def GLOBAL_CONTEXT : Nat := 1 <<< 0
def LOOP_CONTEXT : Nat := 1 <<< 1
def FUNCTION_CONTEXT : Nat := 1 <<< 2

/-- Rust `ContextAnalyzer::new`: the stack starts as `[GLOBAL_CONTEXT]`. -/
def new : List Nat := [GLOBAL_CONTEXT]

/-- Rust `ContextAnalyzer::cur_context`: `*self.context.last().unwrap()`.
The `unwrap` is modelled with a default of `0`; the stack is never
empty at the call sites proved below. -/
def cur_context (s : List Nat) : Nat := s.headD 0

def in_loop (s : List Nat) : Bool :=
  cur_context s &&& LOOP_CONTEXT == LOOP_CONTEXT

def in_function (s : List Nat) : Bool :=
  cur_context s &&& FUNCTION_CONTEXT == FUNCTION_CONTEXT

def in_global (s : List Nat) : Bool :=
  cur_context s &&& GLOBAL_CONTEXT == GLOBAL_CONTEXT

/-- Rust `ContextAnalyzer::analyze`: the four `if` blocks, in source order.
`last_mut` edits are edits of our head; `push`/`pop` are cons/tail.
(`u8` complement `!LOOP_CONTEXT` is `255 ^^^ LOOP_CONTEXT`.) -/
def analyze (s : List Nat) (i : Inst) : List Nat :=
  let s :=
    if i.operation.is_loop_start then
      if in_loop s then LOOP_CONTEXT :: s
      else (cur_context s ||| LOOP_CONTEXT) :: s.tail
    else s
  let s :=
    if i.operation.is_loop_end then
      let s := (cur_context s &&& (255 ^^^ LOOP_CONTEXT)) :: s.tail
      if cur_context s == NONE then s.tail else s
    else s
  let s :=
    if i.operation.is_function_start then FUNCTION_CONTEXT :: s else s
  let s :=
    if i.operation.is_function_end then s.tail else s
  s

/-- Run the analyzer over a whole instruction sequence, starting from a
given stack. -/
def run (s : List Nat) : List Inst → List Nat
  | [] => s
  | i :: rest => run (analyze s i) rest

end ContextAnalyzer

/-! Scope analyzer.  The scope stack is a `Vec<Vec<Variable>>`; as
above, our list's head is the top scope. -/

namespace ScopeAnalyzer

/-- Rust `ScopeAnalyzer::new`: one (empty) global scope. -/
def new : List (List Nat) := [[]]

/-- Rust `ScopeAnalyzer::analyze`: extend the top scope with the
instruction's outputs, pop on a block end, push the temps as a new
scope on a block start.  The source's `last_mut().unwrap()` panics on
an empty stack; that situation is modelled as leaving the stack empty
(it is unreachable in the balanced runs proved below). -/
def analyze (s : List (List Nat)) (i : Inst) : List (List Nat) :=
  let s :=
    match s with
    | top :: rest => (top ++ i.outputs) :: rest
    | [] => []
  let s := if i.operation.is_block_end then s.tail else s
  let s := if i.operation.is_block_start then i.temp :: s else s
  s

/-- Run the analyzer over an instruction sequence. -/
def run (s : List (List Nat)) : List Inst → List (List Nat)
  | [] => s
  | i :: rest => run (analyze s i) rest

/-- Rust `ScopeAnalyzer::get_visible_variables`: flatten the stack in `Vec`
order (bottom scope first; our list head is the `Vec`'s last element,
hence the reverse). -/
def get_visible_variables (s : List (List Nat)) : List Nat :=
  (s.reverse).flatten

end ScopeAnalyzer

/-! ## `src/ir/codeanalysis/typeanalyzer.rs`

The `var -> Type` map (a `HashMap<u32, Type>`), embedded as a function
to `Option Ty`. -/

def TypeMap := Nat → Option Ty

/-- Rust `TypeAnalyzer::set_type`: union the ptype into an existing entry
(overwriting the shape only when the incoming shape is not `None`), or
insert a fresh entry. -/
def TypeAnalyzer.set_type (m : TypeMap) (v : Nat) (t : Ty) : TypeMap :=
  fun x =>
    if x = v then
      match m v with
      | some cur =>
          some ⟨cur.ptype ||| t.ptype,
                if t.shape == Shape.None then cur.shape else t.shape⟩
      | none => some t
    else m x

/-- The `op::BinaryOp` arm of `TypeAnalyzer::analyze`.  `get_type`
panics when the variable has no entry; that is the `none` result. -/
def TypeAnalyzer.analyzeBinaryOp (m : TypeMap) (op : BinaryOperators)
    (lhs rhs output : Nat) : Option TypeMap := do
  let tl ← m lhs
  let m := if tl.is_unknown then
      TypeAnalyzer.set_type m lhs (types.Int.union types.Unknown) else m
  let tr ← m rhs
  let m := if tr.is_unknown then
      TypeAnalyzer.set_type m rhs (types.Int.union types.Unknown) else m
  let lhs_type ← m lhs
  let rhs_type ← m rhs
  match op with
  | .Add =>
    if lhs_type.is_numeric && rhs_type.is_numeric then
      if lhs_type.is_integer && rhs_type.is_integer then
        pure (TypeAnalyzer.set_type m output types.Int)
      else
        pure (TypeAnalyzer.set_type m output types.Float)
    else
      pure (TypeAnalyzer.set_type m output types.String)
  | .Sub | .Mul =>
    if lhs_type.is_integer && rhs_type.is_integer then
      pure (TypeAnalyzer.set_type m output types.Int)
    else
      pure (TypeAnalyzer.set_type m output types.Float)
  | .Div => pure (TypeAnalyzer.set_type m output types.Float)
  | .Mod => pure (TypeAnalyzer.set_type m output types.Int)
  | .BitAnd | .BitOr | .Xor | .LShift | .RShift =>
      pure (TypeAnalyzer.set_type m output types.Int)
  | .LogicAnd | .LogicOr =>
      pure (TypeAnalyzer.set_type m output types.Bool)

/-- The `op::StoreElement` arm of `TypeAnalyzer::analyze`, verbatim:
note that the third `if` tests `value` but calls `set_type` on
`array`. -/
def TypeAnalyzer.analyzeStoreElement (m : TypeMap)
    (array index value : Nat) : Option TypeMap := do
  let ta ← m array
  let m := if ta.is_unknown then
      TypeAnalyzer.set_type m array types.Array else m
  let ti ← m index
  let m := if ti.is_unknown then
      TypeAnalyzer.set_type m index types.Int else m
  let tv ← m value
  let m := if tv.is_unknown then
      TypeAnalyzer.set_type m array
        ((types.Int.union types.Float).union types.Object) else m
  pure m

/-! ## `src/utils/random.rs` — the xorshift64 PRNG

The `u64` state is a `Nat`; wrapping shifts take `% 2^64`.  After
`rand`, the new state equals the returned word, so a single `Nat`
serves as both. -/

namespace Random

/-- Rust `Random::rand`: xorshift64 with the triple `(13, 17, 43)`. -/
def rand (s : Nat) : Nat :=
  let s := (s ^^^ (s <<< 13)) % 2 ^ 64
  let s := s ^^^ (s >>> 17)
  (s ^^^ (s <<< 43)) % 2 ^ 64

/-- Rust `Random::rand_idx`: `rand mod len`, and `0` when `len == 0`. -/
def rand_idx (s : Nat) (len : Nat) : Nat :=
  if len = 0 then 0 else rand s % len

/-- Reinterpret an `isize` bit pattern as `u64` (`as u64`). -/
def isizeAsU64 (x : Int) : Nat := (x % 2 ^ 64).toNat

/-- Wrap an integer to `isize` range (the result of the wrapping
`isize` operations, and of reinterpreting a `u64` `as isize`). -/
def wrapIsize (x : Int) : Int := (x + 2 ^ 63) % 2 ^ 64 - 2 ^ 63

/-- Rust `Random::rand_in_range`:
`min.wrapping_add((rand() % (max.wrapping_sub(min) as u64)) as isize)`,
with the early `min` return when `min == max`. -/
def rand_in_range (s : Nat) (min max : Int) : Int :=
  if min = max then min
  else
    let d := isizeAsU64 (wrapIsize (max - min))
    wrapIsize (min + wrapIsize (rand s % d))

/-- Rust `Random::random_element`: index a slice at
`rand_in_range(0, len)`.  Indexing an empty slice panics, which is the
`none` result. -/
def random_element (s : Nat) (l : List α) : Option α :=
  l.get? (rand_in_range s 0 l.length).toNat

end Random

/-! ## `src/utils/probablity.rs`

`Probablity` computes with `f64`; floating point is not modelled.
Every use of it in the claims below factors through the Boolean
outcome of one `probablity(p)` draw, so the embedding keeps the
*integer* part of the computation (the `rand_in_range(0, 11)` draw
behind `prob()`) and states the `f64` comparisons as the exact integer
thresholds they decide. -/

namespace Probablity

/-- Rust `Probablity::prob` returns `rand_in_range(0, 11) as f64 / 10.0`;
its integer numerator is `rand % 11`. -/
def probNumerator (s : Nat) : Nat := (Random.rand_in_range s 0 11).toNat

/-- Rust `Probablity::probablity(0.5)`: `prob() < 0.5` where
`prob() = k/10.0` for `k = rand % 11 ∈ [0, 10]`.  The `f64` comparison
`(k/10.0 : f64) < 0.5` holds exactly for `k < 5` (`5/10.0` is exactly
`0.5`, and `k/10.0` for `k ≤ 4` rounds to a value below `0.5`). -/
def probablityHalf (s : Nat) : Bool := probNumerator s < 5

/-- The `for i in (0..len).rev()` loop of `Probablity::choose_biased`,
with the `f64` weight computation abstracted into the Boolean outcome
`accept i` of the `probablity(prob_i)` draw at index `i`; falls through
to `&array[0]`. -/
def chooseBiasedLoop (accept : Nat → Bool) (l : List α) :
    List Nat → Option α
  | [] => l.get? 0
  | i :: rest =>
      if accept i then l.get? i else chooseBiasedLoop accept l rest

/-- Rust `Probablity::choose_biased`.  For `len == 0` the source returns
`&array[0]`, which panics (the `none` result); for `len == 1` it
returns the only element. -/
def choose_biased (accept : Nat → Bool) (l : List α) : Option α :=
  if l.length = 0 ∨ l.length = 1 then l.get? 0
  else chooseBiasedLoop accept l (List.range l.length).reverse

end Probablity

/-! ## `src/ir/program.rs` — variable selection -/

/-- The selection `Mode`. -/
inductive Mode where
  | Free
  | Strict
deriving DecidableEq, Repr

namespace Program

/-- The filter closure of `random_variable_of_type`:
`self.get_type(x).contains(rtype)` over a variable list.  `get_type`
panics (`none`) when a variable has no entry in the type map. -/
def filterByContains (typeOf : TypeMap) (rtype : Ty) :
    List Nat → Option (List Nat)
  | [] => some []
  | v :: rest => do
      let t ← typeOf v
      let r ← filterByContains typeOf rtype rest
      pure (if t.contains rtype then v :: r else r)

/-- Rust `Program::random_variable_of_type`, as a function of the scope
stack, the type map, the biased-choice oracle and the RNG state.
The outer `Option` is a panic; the inner `Option` is the function's
own `Option<Variable>` result (`none` = Strict-mode failure). -/
def random_variable_of_type (typeOf : TypeMap) (scopes : List (List Nat))
    (accept : Nat → Bool) (s : Nat) (rtype : Ty) (mode : Mode) :
    Option (Option Nat) := do
  let scope ← Probablity.choose_biased accept scopes
  let rtype := if mode = Mode.Free then
      Ty.mk (rtype.ptype ||| PType.Unknown) rtype.shape else rtype
  let candidates ← filterByContains typeOf rtype scope
  let visible := ScopeAnalyzer.get_visible_variables scopes
  let candidates ← if candidates.isEmpty then
      filterByContains typeOf rtype visible else pure candidates
  if candidates.isEmpty && mode == Mode.Strict then
    pure none
  else
    let candidates := if candidates.isEmpty then visible else candidates
    let v ← Random.random_element s candidates
    pure (some v)

end Program

/-! ## `src/jsruntime/jsbuiltin.rs` and `src/jsruntime/jsruntime.rs` -/

/-- Rust `JSBuiltin`: the static description of one builtin. -/
structure JSBuiltin where
  shape : Nat
  constructor : List ConstructorType
  properties : List String
  methods : Option (List MethodSignature)
  static_methods : Option (List MethodSignature)
deriving DecidableEq, Repr

namespace JSRuntime

/-- The per-candidate method collection inside `get_methods`: the `?`
on `candidate.static_methods.as_ref()?` / `candidate.methods.as_ref()?`
aborts the whole function with `None` when a selected builtin lacks the
requested list. -/
def collectMethods (is_static : Bool) :
    List JSBuiltin → Option (List MethodSignature)
  | [] => some []
  | c :: rest => do
      let l ← if is_static then c.static_methods else c.methods
      let r ← collectMethods is_static rest
      pure (l ++ r)

/-- Rust `JSRuntime::get_methods`: strip `Static`, normalize the `Object`
bit, filter the builtins (dropping the `Object` bit from a non-pure
builtin shape when the query is pure-`Object`), and concatenate the
static or instance method lists of the candidates. -/
def get_methods (builtins : List JSBuiltin) (shape : Nat) :
    Option (List MethodSignature) :=
  let fc := Shape.fetch_clear_static shape
  let is_static := fc.1
  let shape := fc.2
  let shape := if !Shape.is_pure_object shape then
      shape &&& complU64 Shape.Object else shape
  let candidates := builtins.filter (fun b =>
    let cshape :=
      if Shape.shape_contains shape Shape.Object
          && !Shape.is_pure_object b.shape then
        b.shape &&& complU64 Shape.Object
      else b.shape
    Shape.shape_contains cshape shape)
  if candidates.isEmpty then none
  else collectMethods is_static candidates

/-! The builtin registrations (`register_array`, `register_math`,
`register_string`, `register_object`, `register_arraybuffer`,
`register_typedarray`), in the order `JSRuntime::new` runs them. -/

/-- Rust `JSRuntime::register_array`. -/
def arrayBuiltin : JSBuiltin :=
  let static_array_type := Ty.obj (Shape.Array ||| Shape.Static)
  { shape := Shape.Array
    constructor := [
      ConstructorType.Callable (MethodSignature.new "Array" types.Array
        [MethodArg.Type types.Int] types.Array),
      ConstructorType.NonCallable "Array" static_array_type]
    properties := ["length"]
    methods := some [
      MethodSignature.new "push" types.Array [MethodArg.Type types.Any] types.Int,
      MethodSignature.new "pop" types.Array [] types.Any,
      MethodSignature.new "shift" types.Array [] types.Any,
      MethodSignature.new "sort" types.Array [] types.Array,
      MethodSignature.new "join" types.Array [] types.String,
      MethodSignature.new "concat" types.Array [MethodArg.Repeat 10 types.Any] types.Array,
      MethodSignature.new "unshift" types.Array [MethodArg.Repeat 10 types.Any] types.Int,
      MethodSignature.new "fill" types.Array
        [MethodArg.Type types.Int, MethodArg.Repeat 2 types.Int] types.Array,
      MethodSignature.new "lastIndexOf" types.Array [MethodArg.Type types.Any] types.Any,
      MethodSignature.new "includes" types.Array [MethodArg.Type types.Any] types.Bool,
      MethodSignature.new "slice" types.Array
        [MethodArg.Type types.Int, MethodArg.Optional types.Int] types.Array,
      MethodSignature.new "copyWithin" types.Array
        [MethodArg.Type types.Int, MethodArg.Repeat 2 types.Int] types.Array,
      MethodSignature.new "splice" types.Array
        [MethodArg.Type types.Int, MethodArg.Optional types.Int,
         MethodArg.Repeat 10 types.Any] types.Undefined]
    static_methods := some [
      MethodSignature.new "from" types.Array
        [MethodArg.Type (types.Array.union types.String)] types.Array,
      MethodSignature.new "from" types.Array [MethodArg.Type types.Any] types.Bool,
      MethodSignature.new "of" types.Array [MethodArg.Repeat 100 types.Any] types.Array] }

/-- Rust `JSRuntime::register_math` (its `methods` vector is registered as
the builtin's `static_methods`; instance `methods` is `None`). -/
def mathBuiltin : JSBuiltin :=
  let math := Ty.obj (Shape.Math ||| Shape.Static)
  let numeric := types.Int.union types.Float
  { shape := Shape.Math
    constructor := [ConstructorType.NonCallable "Math" math]
    properties := ["E", "LN2", "LN10", "LOG2E", "LOG10E", "PI",
                   "SQRT_2", "SQRT2"]
    methods := none
    static_methods := some [
      MethodSignature.new "random" math [] types.Float,
      MethodSignature.new "abs" math [MethodArg.Type numeric] types.Float,
      MethodSignature.new "acos" math [MethodArg.Type numeric] types.Float,
      MethodSignature.new "asin" math [MethodArg.Type numeric] types.Float,
      MethodSignature.new "asinh" math [MethodArg.Type numeric] types.Float,
      MethodSignature.new "asinh" math [MethodArg.Type numeric] types.Float,
      MethodSignature.new "atan" math [MethodArg.Type numeric] types.Float,
      MethodSignature.new "atanh" math [MethodArg.Type numeric] types.Float,
      MethodSignature.new "atan2" math [MethodArg.Type numeric] types.Float,
      MethodSignature.new "cbrt" math [MethodArg.Type numeric] types.Float,
      MethodSignature.new "ceil" math [MethodArg.Type numeric] types.Float,
      MethodSignature.new "clz32" math [MethodArg.Type numeric] types.Float,
      MethodSignature.new "cos" math [MethodArg.Type numeric] types.Float,
      MethodSignature.new "cosh" math [MethodArg.Type numeric] types.Float,
      MethodSignature.new "exp" math [MethodArg.Type numeric] types.Float,
      MethodSignature.new "expm1" math [MethodArg.Type numeric] types.Float,
      MethodSignature.new "floor" math [MethodArg.Type numeric] types.Float,
      MethodSignature.new "fround" math [MethodArg.Type numeric] types.Float,
      MethodSignature.new "log" math [MethodArg.Type numeric] types.Float,
      MethodSignature.new "log1p" math [MethodArg.Type numeric] types.Float,
      MethodSignature.new "log10" math [MethodArg.Type numeric] types.Float,
      MethodSignature.new "log2" math [MethodArg.Type numeric] types.Float,
      MethodSignature.new "round" math [MethodArg.Type numeric] types.Float,
      MethodSignature.new "sign" math [MethodArg.Type numeric] types.Float,
      MethodSignature.new "sin" math [MethodArg.Type numeric] types.Float,
      MethodSignature.new "sinh" math [MethodArg.Type numeric] types.Float,
      MethodSignature.new "sqrt" math [MethodArg.Type numeric] types.Float,
      MethodSignature.new "tan" math [MethodArg.Type numeric] types.Float,
      MethodSignature.new "tanh" math [MethodArg.Type numeric] types.Float,
      MethodSignature.new "trunc" math [MethodArg.Type numeric] types.Float,
      MethodSignature.new "pow" math
        [MethodArg.Type numeric, MethodArg.Type numeric] types.Float,
      MethodSignature.new "imul" math
        [MethodArg.Type numeric, MethodArg.Type numeric] types.Float,
      MethodSignature.new "max" math
        [MethodArg.Type numeric, MethodArg.Repeat 4 numeric] types.Float,
      MethodSignature.new "min" math
        [MethodArg.Type numeric, MethodArg.Repeat 4 numeric] types.Float,
      MethodSignature.new "hypot" math
        [MethodArg.Type numeric, MethodArg.Repeat 4 numeric] types.Float] }

/-- Rust `JSRuntime::register_string`. -/
def stringBuiltin : JSBuiltin :=
  let static_string := Ty.obj (Shape.String ||| Shape.Static)
  { shape := Shape.String
    constructor := [
      ConstructorType.Callable
        (MethodSignature.new "String" types.String [] types.String),
      ConstructorType.NonCallable "String" static_string]
    properties := ["length"]
    methods := some [
      MethodSignature.new "at" types.String [MethodArg.Type types.Int] types.String,
      MethodSignature.new "charAt" types.String [MethodArg.Type types.Int] types.String,
      MethodSignature.new "charCodeAt" types.String [MethodArg.Type types.Int] types.Int,
      MethodSignature.new "codePointAt" types.String [MethodArg.Type types.Int] types.Int,
      MethodSignature.new "codePointAt" types.String [MethodArg.Type types.Int] types.Int,
      MethodSignature.new "concat" types.String
        [MethodArg.Repeat 20 types.String] types.String,
      MethodSignature.new "includes" types.String
        [MethodArg.Type types.String, MethodArg.Optional types.Int] types.Bool,
      MethodSignature.new "endsWith" types.String
        [MethodArg.Type types.String, MethodArg.Optional types.Int] types.Bool,
      MethodSignature.new "startsWith" types.String
        [MethodArg.Type types.String, MethodArg.Optional types.Int] types.Bool,
      MethodSignature.new "indexOf" types.String
        [MethodArg.Type types.String, MethodArg.Optional types.Int] types.Int,
      MethodSignature.new "indexOf" types.String
        [MethodArg.Type types.String, MethodArg.Optional types.Int] types.Int,
      MethodSignature.new "lastIndexOf" types.String
        [MethodArg.Type types.String, MethodArg.Optional types.Int] types.Int,
      MethodSignature.new "localeCompare" types.String
        [MethodArg.Type types.String, MethodArg.Optional types.String,
         MethodArg.Optional types.Object] types.Int,
      MethodSignature.new "padEnd" types.String
        [MethodArg.Type types.Int, MethodArg.Optional types.String] types.String,
      MethodSignature.new "padStart" types.String
        [MethodArg.Type types.Int, MethodArg.Optional types.String] types.Int,
      MethodSignature.new "repeat" types.String [MethodArg.Type types.Int] types.String,
      MethodSignature.new "replace" types.String
        [MethodArg.Type types.String, MethodArg.Type types.String] types.String,
      MethodSignature.new "replaceAll" types.String
        [MethodArg.Type types.String, MethodArg.Type types.String] types.String,
      MethodSignature.new "slice" types.String
        [MethodArg.Type types.Int, MethodArg.Optional types.Int] types.Bool,
      MethodSignature.new "split" types.String
        [MethodArg.Optional types.String, MethodArg.Optional types.Int] types.Array,
      MethodSignature.new "substring" types.String
        [MethodArg.Optional types.Int, MethodArg.Optional types.Int] types.String,
      MethodSignature.new "toLowerCase" types.String [] types.String,
      MethodSignature.new "toUpperCase" types.String [] types.String,
      MethodSignature.new "trim" types.String [] types.String,
      MethodSignature.new "toString" types.String [] types.String,
      MethodSignature.new "trimStart" types.String [] types.String,
      MethodSignature.new "trimEnd" types.String [] types.String,
      MethodSignature.new "valueOf" types.String [] types.String]
    static_methods := some [
      MethodSignature.new "fromCharCode" static_string
        [MethodArg.Repeat 20 types.Int] types.String,
      MethodSignature.new "fromCodePoint" static_string
        [MethodArg.Repeat 20 types.Int] types.String] }

/-- Rust `JSRuntime::register_object` (instance `methods` is `None`). -/
def objectBuiltin : JSBuiltin :=
  let static_obj := Ty.obj (Shape.Object ||| Shape.Static)
  { shape := Shape.Object
    constructor := [
      ConstructorType.Callable
        (MethodSignature.new "Object" types.Object [] types.Object),
      ConstructorType.NonCallable "Object" static_obj]
    properties := ["constructor", "__proto__"]
    methods := none
    static_methods := some [
      MethodSignature.new "assign" static_obj
        [MethodArg.Type types.Object, MethodArg.Optional types.Object] types.Object,
      MethodSignature.new "create" static_obj
        [MethodArg.Type types.Object] types.Object,
      MethodSignature.new "defineProperty" static_obj
        [MethodArg.Type types.Object, MethodArg.Type types.String,
         MethodArg.Type types.Object] types.Object,
      MethodSignature.new "freeze" static_obj
        [MethodArg.Type types.Object] types.Undefined,
      MethodSignature.new "getOwnPropertyDescriptor" static_obj
        [MethodArg.Type types.Object, MethodArg.Type types.String] types.Object,
      MethodSignature.new "getOwnPropertyDescriptors" static_obj
        [MethodArg.Type types.Object] types.Object,
      MethodSignature.new "getOwnPropertyNames" static_obj
        [MethodArg.Type types.Object] types.Array,
      MethodSignature.new "getOwnPropertySymbols" static_obj
        [MethodArg.Type types.Object] types.Array,
      MethodSignature.new "getPrototypeOf" static_obj
        [MethodArg.Type types.Object] types.Object,
      MethodSignature.new "is" static_obj [MethodArg.Type types.Any] types.Bool,
      MethodSignature.new "isExtensible" static_obj
        [MethodArg.Type types.Any] types.Bool,
      MethodSignature.new "isFrozen" static_obj
        [MethodArg.Type types.Any] types.Bool,
      MethodSignature.new "isSealed" static_obj
        [MethodArg.Type types.Any] types.Bool,
      MethodSignature.new "keys" static_obj
        [MethodArg.Type types.Object] types.Array,
      MethodSignature.new "preventExtensions" static_obj
        [MethodArg.Type types.Object] types.Object,
      MethodSignature.new "seal" static_obj
        [MethodArg.Type types.Object] types.Object,
      MethodSignature.new "setPrototypeOf" static_obj
        [MethodArg.Type types.Object, MethodArg.Type types.Object] types.Object,
      MethodSignature.new "setPrototypeOf" static_obj
        [MethodArg.Type types.Object, MethodArg.Type types.Object] types.Object,
      MethodSignature.new "values" static_obj
        [MethodArg.Type types.Object] types.String] }

/-- Rust `JSRuntime::register_arraybuffer`. -/
def arraybufferBuiltin : JSBuiltin :=
  let arraybuf := Ty.obj Shape.ArrayBuffer
  let arraybuf_static := Ty.obj (Shape.ArrayBuffer ||| Shape.Static)
  { shape := Shape.ArrayBuffer
    constructor := [
      ConstructorType.Callable (MethodSignature.new "ArrayBuffer" arraybuf
        [MethodArg.Type types.Int] arraybuf),
      ConstructorType.NonCallable "ArrayBuffer" arraybuf_static]
    properties := ["byteLength"]
    methods := some [
      MethodSignature.new "slice" arraybuf
        [MethodArg.Type types.Int, MethodArg.Optional types.Int] arraybuf]
    static_methods := some [
      MethodSignature.new "isView" arraybuf_static
        [MethodArg.Type types.Any] types.Bool] }

/-- Rust `JSRuntime::register_typedarray`. -/
def typedarrayBuiltin : JSBuiltin :=
  let typed_array := Ty.obj Shape.TypedArray
  let array_buffer := Ty.obj Shape.ArrayBuffer
  let typed_array_static := Ty.obj (Shape.TypedArray ||| Shape.Static)
  { shape := Shape.TypedArray
    constructor := [
      ConstructorType.Callable (MethodSignature.new "TypedArray" typed_array
        [MethodArg.Optional ((types.Int.union typed_array).union types.Object)]
        typed_array),
      ConstructorType.Callable (MethodSignature.new "TypedArray" typed_array
        [MethodArg.Type array_buffer, MethodArg.Optional types.Int,
         MethodArg.Optional types.Int] typed_array),
      ConstructorType.NonCallable "TypedArray" typed_array_static]
    properties := ["buffer", "byteLength", "byteOffset", "length"]
    methods := some [
      MethodSignature.new "at" typed_array [MethodArg.Type types.Int]
        (types.Int.union types.Float),
      MethodSignature.new "copyWithin" typed_array
        [MethodArg.Type types.Int, MethodArg.Optional types.Int,
         MethodArg.Optional types.Int] typed_array,
      MethodSignature.new "copyWithin" typed_array
        [MethodArg.Type types.Int, MethodArg.Optional types.Int,
         MethodArg.Optional types.Int] typed_array,
      MethodSignature.new "fill" typed_array
        [MethodArg.Type (types.Int.union types.Float),
         MethodArg.Optional types.Int, MethodArg.Optional types.Int] typed_array,
      MethodSignature.new "includes" typed_array
        [MethodArg.Type (types.Int.union types.Float),
         MethodArg.Optional types.Int] types.Bool,
      MethodSignature.new "indexOf" typed_array
        [MethodArg.Type (types.Int.union types.Float),
         MethodArg.Optional types.Int] types.Int,
      MethodSignature.new "join" typed_array [] types.String,
      MethodSignature.new "lastIndexOf" typed_array
        [MethodArg.Type (types.Int.union types.Float),
         MethodArg.Optional types.Int] types.Int,
      MethodSignature.new "reverse" typed_array [] types.Int,
      MethodSignature.new "set" typed_array
        [MethodArg.Type (types.Array.union typed_array),
         MethodArg.Optional types.Int] types.Undefined,
      MethodSignature.new "slice" typed_array
        [MethodArg.Optional types.Int, MethodArg.Optional types.Int]
        types.Undefined,
      MethodSignature.new "sort" typed_array [] typed_array,
      MethodSignature.new "subarray" typed_array
        [MethodArg.Optional types.Int, MethodArg.Optional types.Int] typed_array,
      MethodSignature.new "toLocaleString" typed_array [] types.String]
    static_methods := some [
      MethodSignature.new "from" typed_array_static
        [MethodArg.Type types.Array] typed_array,
      MethodSignature.new "of" typed_array_static
        [MethodArg.Repeat 10 types.Int] typed_array] }

/-- The builtin list built by `JSRuntime::new` (registration order:
array, math, string, object, arraybuffer, typedarray). -/
def builtins : List JSBuiltin :=
  [arrayBuiltin, mathBuiltin, stringBuiltin, objectBuiltin,
   arraybufferBuiltin, typedarrayBuiltin]

end JSRuntime

/-! ## `src/lifter/lifter.rs` — the `op::CreateArray` arm

The lifter owns its own `Probablity` (seeded independently of the
program builder's RNG, from the timestamp counter: `Random::new(0)`),
and consumes one `probablity(0.5)` draw per `CreateArray`. -/

/-- Rust `Variable::print`: `v<n>`. -/
def Variable.print (v : Nat) : String := "v" ++ toString v

/-- The `op::CreateArray` arm of `Lifter::lift`, as a function of the
lifter's RNG state: emit the `[ … ]` literal form when
`probablity(0.5)` fires, else the `Array( … )` call form. -/
def Lifter.liftCreateArray (s : Nat) (output : Nat)
    (inputs : List Nat) : String :=
  let code := "var " ++ Variable.print output
  let inputsStr := String.intercalate ", " (inputs.map Variable.print)
  if Probablity.probablityHalf s then
    code ++ " = [" ++ inputsStr ++ "];"
  else
    code ++ " = Array(" ++ inputsStr ++ ");"

/-! ## `src/execution/repl.rs` — control commands and the retry logic

`execute_impl` performs process and pipe I/O; it is abstracted as a
value of type `Except ReplError ReturnCode` (its Rust return type),
while the pure classification logic around `recv_cmd` and the
`execute` retry wrapper are embedded directly. -/

/-- Rust `ReplError`. -/
inductive ReplError where
  | Timeout
  | Other (msg : String)
deriving DecidableEq, Repr

/-- Rust `ReturnCode` (`src/execution/execution.rs`). -/
inductive ReturnCode where
  | Timeout
  | Crash (sig : Int)
  | Status (code : Int)
deriving DecidableEq, Repr

/-- Rust `CtrlCmd`. -/
inductive CtrlCmd where
  | Helo
  | Exec
  | Exit
  | Misc (val : Int)
deriving DecidableEq, Repr

/-- Rust `impl From<i32> for CtrlCmd`: `0x4f4c4548` = `HELO`,
`0x63657865` = `exec`, `0x74697865` = `exit`, anything else `Misc`. -/
def CtrlCmd.fromI32 (val : Int) : CtrlCmd :=
  if val = 0x4f4c4548 then CtrlCmd.Helo
  else if val = 0x63657865 then CtrlCmd.Exec
  else if val = 0x74697865 then CtrlCmd.Exit
  else CtrlCmd.Misc val

/-- Reassemble the `i32` that `recv_cmd` reads from four little-endian
bytes (the child writes raw bytes; the parent reads them into an
`[0i32; 1]` buffer). -/
def i32OfLeBytes (b0 b1 b2 b3 : Nat) : Int :=
  let n := b0 + (b1 <<< 8) + (b2 <<< 16) + (b3 <<< 24)
  if n < 2 ^ 31 then (n : Int) else (n : Int) - 2 ^ 32

/-- The possible results of one `Child::try_wait` call. -/
inductive TryWait where
  | ExitCode (code : Int)
  | Signaled (sig : Int)
  | StillRunning
  | Failed
deriving DecidableEq, Repr

/-- The reaping loop in `execute_impl`'s `Err(_)` branch: `try_wait`
until the child's status is known, erroring out after the check
`iters >= 10` fails.  `tw n` is the result of the `n`-th `try_wait`. -/
def ReplConnection.reapLoop (tw : Nat → TryWait) (iters : Nat) :
    Except ReplError ReturnCode :=
  match tw iters with
  | TryWait.ExitCode c => Except.ok (ReturnCode.Status c)
  | TryWait.Signaled sg => Except.ok (ReturnCode.Crash sg)
  | TryWait.StillRunning =>
      if h : iters ≥ 10 then
        Except.error (ReplError.Other "Poll succeded but read failed")
      else
        ReplConnection.reapLoop tw (iters + 1)
  | TryWait.Failed => Except.error (ReplError.Other "Error in try_wait")
termination_by 11 - iters

/-- The `match self.recv_cmd()` at the end of `execute_impl`: a 4-byte
`Misc` word is the program's status; a known control tag is a protocol
error; a poll timeout resets the connection and yields
`ReturnCode::Timeout`; any other receive failure enters the reaping
loop. -/
def ReplConnection.classifyRecv (tw : Nat → TryWait)
    (recv : Except ReplError CtrlCmd) : Except ReplError ReturnCode :=
  match recv with
  | Except.ok (CtrlCmd.Misc ret) => Except.ok (ReturnCode.Status ret)
  | Except.ok _ => Except.error (ReplError.Other "Invalid message received")
  | Except.error ReplError.Timeout => Except.ok ReturnCode.Timeout
  | Except.error (ReplError.Other _) => ReplConnection.reapLoop tw 0

/-- The observable outcome of the top-level `execute`: a `ReturnCode`
after `resets` calls to `reset_connection`, or worker death
(`process::exit(-1)`). -/
inductive ExecOutcome where
  | Normal (resets : Nat) (code : ReturnCode)
  | Fatal
deriving DecidableEq, Repr

/-- Rust `ReplConnection::execute` (the `Execution` impl): `r1` and `r2` are
the results of the first and — after one `reset_connection` — second
`execute_impl` call; a second failure terminates the worker. -/
def ReplConnection.execute (r1 r2 : Except ReplError ReturnCode) :
    ExecOutcome :=
  match r1 with
  | Except.ok code => ExecOutcome.Normal 0 code
  | Except.error _ =>
      match r2 with
      | Except.ok code => ExecOutcome.Normal 1 code
      | Except.error _ => ExecOutcome.Fatal

end Zebra

namespace Zebra

/-! ### Reference definitions and concrete instances used by the proofs -/

namespace ScopeAnalyzer

/-- The number of currently-open block starts after processing the
sequence, starting from `n` open blocks (a block-end closes one, a
block-start opens one; `Nat` subtraction truncates at zero for
unmatched ends). -/
def openBlocks (n : Nat) : List Inst → Nat
  | [] => n
  | i :: rest =>
      openBlocks ((if i.operation.is_block_end then n - 1 else n)
        + (if i.operation.is_block_start then 1 else 0)) rest

/-- Every block-end in the sequence is processed while at least one
block is open. -/
def balanced (n : Nat) : List Inst → Bool
  | [] => true
  | i :: rest =>
      (!i.operation.is_block_end || decide (1 ≤ n))
      && balanced ((if i.operation.is_block_end then n - 1 else n)
          + (if i.operation.is_block_start then 1 else 0)) rest

end ScopeAnalyzer

namespace ContextAnalyzer

/-- One step of the proper-nesting checker: an open-block list (head =
innermost; `true` = loop, `false` = function) tracking that every
loop/function end closes the innermost open block of the right kind. -/
def checkStep (opens : List Bool) (i : Inst) : Option (List Bool) :=
  if i.operation.is_loop_start then some (true :: opens)
  else if i.operation.is_loop_end then
    match opens with
    | true :: r => some r
    | _ => none
  else if i.operation.is_function_start then some (false :: opens)
  else if i.operation.is_function_end then
    match opens with
    | false :: r => some r
    | _ => none
  else some opens

/-- Run the proper-nesting checker over a sequence. -/
def checkNest (opens : List Bool) : List Inst → Option (List Bool)
  | [] => some opens
  | i :: rest => do
      let o ← checkStep opens i
      checkNest o rest

/-- The context stack determined by an open-block list: functions push
a fresh `FUNCTION` element; the first loop of a run ORs `LOOP` into the
element below, further nested loops push `LOOP` elements. -/
def stackOf : List Bool → List Nat
  | [] => [GLOBAL_CONTEXT]
  | false :: rest => FUNCTION_CONTEXT :: stackOf rest
  | true :: rest =>
      let s := stackOf rest
      if in_loop s then LOOP_CONTEXT :: s
      else (cur_context s ||| LOOP_CONTEXT) :: s.tail

end ContextAnalyzer

/-- The per-operator output rule of spec §4.3 for known numeric
operands, written from the spec's words as a reference for comparison
with the analyzer (`+`, `-`, `*`: Int if both integer else Float; `/`:
Float; `%`, bitwise, shifts: Int; `&&`, `||`: Bool). -/
def binaryOpNumericRule (op : BinaryOperators) (lhs rhs : Ty) : Ty :=
  match op with
  | .Add | .Sub | .Mul =>
      if lhs.is_integer && rhs.is_integer then types.Int else types.Float
  | .Div => types.Float
  | .Mod | .BitAnd | .BitOr | .Xor | .LShift | .RShift => types.Int
  | .LogicAnd | .LogicOr => types.Bool

/-- Method lookup as the (amended) spec describes it: strip `Static`;
clear the `Object` bit when the remainder is not pure-`Object`; select
builtins whose shape — with its own `Object` bit cleared when the query
is pure-`Object` and the builtin's shape is not — contains the
normalized query; return `none` when no builtin is selected *or* when
any selected builtin lacks the requested method list; otherwise the
concatenation of the selected builtins' static (resp. instance) method
lists. -/
def JSRuntime.get_methods_spec (builtins : List JSBuiltin) (shape : Nat) :
    Option (List MethodSignature) :=
  let is_static := Shape.is_static shape
  let norm := shape &&& complU64 Shape.Static
  let norm := if Shape.is_pure_object norm then norm
              else norm &&& complU64 Shape.Object
  let selected := builtins.filter (fun b =>
    Shape.shape_contains
      (if Shape.shape_contains norm Shape.Object
          && !Shape.is_pure_object b.shape then
        b.shape &&& complU64 Shape.Object
      else b.shape) norm)
  let pick := fun (b : JSBuiltin) =>
    if is_static then b.static_methods else b.methods
  if selected.isEmpty then none
  else if selected.all (fun b => (pick b).isSome) then
    some ((selected.map (fun b => (pick b).getD [])).flatten)
  else none

/-- The `EndIf` instruction (no inputs, outputs or temps). -/
def endIfInst : Inst := ⟨Operation.EndIf, [], [], []⟩
def beginIfInst : Inst := ⟨Operation.BeginIf, [0], [], []⟩
def beginFunInst : Inst :=
  ⟨Operation.BeginFunctionDefinition (FunctionSignature.new 0), [], [0], []⟩

/-- A type map with two known `Int`-typed operands. -/
def twoIntMap : TypeMap := fun v =>
  if v = 0 then some types.Int else if v = 1 then some types.Int else none

/-- A type map for the C1 witness: a known `Int` and a known `Bool`. -/
def intBoolMap : TypeMap := fun v =>
  if v = 0 then some types.Int else if v = 1 then some types.Bool else none

/-- A type map with receiver `Array`, index `Int` and an `Unknown`
value operand. -/
def storeElemMap : TypeMap := fun v =>
  if v = 0 then some types.Array else if v = 1 then some types.Int
  else if v = 2 then some types.Unknown else none

/-- A one-variable type map for the C10 witness. -/
def oneIntMap : TypeMap := fun v => if v = 0 then some types.Int else none

end Zebra

namespace Zebra

/-! ## Helper lemmas -/

lemma land_mask64 {x : Nat} (h : x < 2 ^ 64) : x &&& (2 ^ 64 - 1) = x := by
  apply Nat.eq_of_testBit_eq
  intro i
  simp only [Nat.testBit_and, Nat.testBit_two_pow_sub_one]
  by_cases hi : i < 64
  · simp [hi]
  · have hx : x.testBit i = false :=
      Nat.testBit_lt_two_pow
        (lt_of_lt_of_le h (Nat.pow_le_pow_right (by norm_num) (by omega)))
    simp [hx]

lemma land_lor_self (x y : Nat) : x &&& (y ||| x) = x := by
  apply Nat.eq_of_testBit_eq
  intro i
  simp only [Nat.testBit_and, Nat.testBit_or]
  cases hx : x.testBit i <;> simp

set_option maxRecDepth 4000 in
lemma u8_eq_object : ∀ x < 256, x &&& 127 = 0 → x &&& 128 = 128 → x = 128 := by decide

set_option maxRecDepth 4000 in
lemma u8_land_255 : ∀ x < 256, 255 &&& x = x := by decide

set_option maxRecDepth 4000 in
lemma u8_land_128_ne : ∀ x < 256, x &&& 128 = 128 → 128 &&& x ≠ 0 := by decide

set_option maxRecDepth 4000 in
lemma u8_land_128_127 : ∀ x < 256, (128 &&& x) &&& 127 = 0 := by decide

/-- Wrapped helpers for the RNG proofs. -/
lemma wrapIsize_eq_self {x : Int} (h1 : -(2 ^ 63) ≤ x) (h2 : x < 2 ^ 63) :
    Random.wrapIsize x = x := by
  unfold Random.wrapIsize
  omega

lemma wrapIsize_add_wrap (a b : Int) :
    Random.wrapIsize (a + Random.wrapIsize b) = Random.wrapIsize (a + b) := by
  unfold Random.wrapIsize
  omega

lemma isizeAsU64_wrap {x : Int} (h1 : 0 < x) (h2 : x < 2 ^ 64) :
    (Random.isizeAsU64 (Random.wrapIsize x) : Int) = x := by
  unfold Random.isizeAsU64 Random.wrapIsize
  omega

lemma rand_in_range_bounds (s : Nat) {min max : Int}
    (h1 : -(2 ^ 63) ≤ min) (h2 : max < 2 ^ 63) (h : min < max) :
    min ≤ Random.rand_in_range s min max ∧ Random.rand_in_range s min max < max := by
  have hne : min ≠ max := ne_of_lt h
  unfold Random.rand_in_range
  rw [if_neg hne]
  have hd : (Random.isizeAsU64 (Random.wrapIsize (max - min)) : Int) = max - min :=
    isizeAsU64_wrap (by omega) (by omega)
  set d := Random.isizeAsU64 (Random.wrapIsize (max - min)) with hdd
  set r := Random.rand s with hr
  have hdpos : 0 < d := by omega
  have hmod : r % d < d := Nat.mod_lt r hdpos
  have hmod2 : ((r % d : Nat) : Int) < max - min := by omega
  have hmodnn : (0 : Int) ≤ ((r % d : Nat) : Int) := Int.ofNat_nonneg _
  rw [wrapIsize_add_wrap]
  rw [wrapIsize_eq_self (by omega) (by omega)]
  omega

end Zebra

namespace Zebra

/-! ## C8 — RNG index and range bounds -/

/-- C8: `rand_idx(len) < len` for `len > 0` and `rand_idx(0) = 0`;
`rand_in_range(min, max) ∈ [min, max)` for `min < max` (within the
`isize` value range), and `rand_in_range(min, min) = min`. -/
theorem random_idx_and_range_spec (s : Nat) :
    (∀ len : Nat, 0 < len → Random.rand_idx s len < len)
    ∧ Random.rand_idx s 0 = 0
    ∧ (∀ min max : Int, -(2 ^ 63) ≤ min → max < 2 ^ 63 → min < max →
        min ≤ Random.rand_in_range s min max
          ∧ Random.rand_in_range s min max < max)
    ∧ (∀ min : Int, Random.rand_in_range s min min = min) := by
  refine ⟨?_, ?_, ?_, ?_⟩
  · intro len h
    unfold Random.rand_idx
    rw [if_neg (Nat.pos_iff_ne_zero.mp h)]
    exact Nat.mod_lt _ h
  · rfl
  · intro mn mx h1 h2 h3
    exact rand_in_range_bounds s h1 h2 h3
  · intro mn
    unfold Random.rand_in_range
    simp

theorem random_idx_and_range_spec_witness :
    Random.rand_idx 12345 7 < 7
    ∧ -5 ≤ Random.rand_in_range 12345 (-5) 5
    ∧ Random.rand_in_range 12345 (-5) 5 < 5
    ∧ Random.rand_in_range 12345 3 3 = 3 :=
  ⟨(random_idx_and_range_spec 12345).1 7 (by norm_num),
   ((random_idx_and_range_spec 12345).2.2.1 (-5) 5 (by norm_num) (by norm_num)
      (by norm_num)).1,
   ((random_idx_and_range_spec 12345).2.2.1 (-5) 5 (by norm_num) (by norm_num)
      (by norm_num)).2,
   (random_idx_and_range_spec 12345).2.2.2 3⟩

/-! ## C2 — containment laws -/

lemma contains_self {S : Ty} (hp : S.ptype < 256)
    (hne : S.ptype ≠ 0) (hpo : S.ptype = PType.Object → S.shape ≠ 0) :
    S.contains S = true := by
  unfold Ty.contains Ty.is_object
  by_cases hobj : S.ptype &&& PType.Object = PType.Object
  · simp only [hobj, beq_self_eq_true, Bool.not_true, Bool.or_self, Bool.false_eq_true,
      if_false, Nat.and_self]
    by_cases h127 : S.ptype &&& complU8 PType.Object = 0
    · have hobj8 : S.ptype = 128 := by
        apply u8_eq_object S.ptype hp
        · simpa [complU8, PType.Any, PType.Object] using h127
        · simpa [PType.Object] using hobj
      have hsh : S.shape ≠ 0 := hpo (by simpa [PType.Object] using hobj8)
      simp only [h127, bne_self_eq_false, Bool.false_eq_true, if_false]
      by_cases hany : S.shape = Shape.Any
      · simp [hany]
      · simp [hany, Nat.and_self, hsh]
    · simp [h127]
  · have hbeq : (S.ptype &&& PType.Object == PType.Object) = false := by
      simpa using hobj
    simp only [hbeq, Bool.not_false, Bool.true_or, if_true, Nat.and_self,
      bne_iff_ne, ne_eq]
    exact hne

end Zebra

namespace Zebra

/-- Rust `Ty.contains` on explicit components (definitional unfolding). -/
lemma contains_mk (p1 s1 p2 s2 : Nat) :
    Ty.contains ⟨p1, s1⟩ ⟨p2, s2⟩ =
      (if !(p1 &&& PType.Object == PType.Object)
          || !(p2 &&& PType.Object == PType.Object) then
        p1 &&& p2 != 0
      else if (p1 &&& p2) &&& complU8 PType.Object != 0 then true
      else if s2 == Shape.Any then true
      else s2 &&& s1 != 0) := rfl

lemma any_contains {p s : Nat} (hp : p < 256) (hs : s < 2 ^ 64)
    (hne : p ≠ 0) (hpo : p = PType.Object → s ≠ 0) :
    types.Any.contains ⟨p, s⟩ = true := by
  have hshow : types.Any.contains ⟨p, s⟩
      = Ty.contains ⟨PType.Any, Shape.Any⟩ ⟨p, s⟩ := rfl
  rw [hshow, contains_mk]
  have h255 : PType.Any &&& p = p := u8_land_255 p hp
  by_cases hobj : p &&& PType.Object = PType.Object
  · have hbeq : (p &&& PType.Object == PType.Object) = true := by simpa using hobj
    have hbeq2 : (PType.Any &&& PType.Object == PType.Object) = true := by decide
    simp only [hbeq, hbeq2, Bool.not_true, Bool.or_self, Bool.false_eq_true,
      if_false, h255]
    by_cases h127 : p &&& complU8 PType.Object = 0
    · have hp8 : p = 128 :=
        u8_eq_object p hp (by simpa [complU8, PType.Any, PType.Object] using h127)
          (by simpa [PType.Object] using hobj)
      have hsne : s ≠ 0 := hpo (by simp [PType.Object, hp8])
      simp only [h127, bne_self_eq_false, Bool.false_eq_true, if_false]
      by_cases hany : s = Shape.Any
      · simp [hany]
      · have hmask : s &&& Shape.Any = s := land_mask64 hs
        simp [hany, hmask, hsne]
    · simp [h127]
  · have hbeq : (p &&& PType.Object == PType.Object) = false := by simpa using hobj
    simp only [hbeq, Bool.not_false, Bool.or_true, if_true, h255, bne_iff_ne, ne_eq]
    exact hne

lemma object_contains {p s : Nat} (hp : p < 256) (hs : s < 2 ^ 64)
    (hobj : p &&& PType.Object = PType.Object) (hsne : s ≠ 0) :
    types.Object.contains ⟨p, s⟩ = true := by
  have hshow : types.Object.contains ⟨p, s⟩
      = Ty.contains ⟨PType.Object, Shape.Any⟩ ⟨p, s⟩ := rfl
  rw [hshow, contains_mk]
  have hbeq : (p &&& PType.Object == PType.Object) = true := by simpa using hobj
  have hbeq2 : (PType.Object &&& PType.Object == PType.Object) = true := by decide
  have h127 : (PType.Object &&& p) &&& complU8 PType.Object = 0 := by
    have := u8_land_128_127 p hp
    simpa [complU8, PType.Any, PType.Object] using this
  simp only [hbeq, hbeq2, Bool.not_true, Bool.or_self, Bool.false_eq_true,
    if_false, h127, bne_self_eq_false]
  by_cases hany : s = Shape.Any
  · simp [hany]
  · have hmask : s &&& Shape.Any = s := land_mask64 hs
    simp [hany, hmask, hsne]

lemma static_contains_instance {sh : Nat} (hne : sh ≠ 0) :
    (Ty.obj (Shape.Static ||| sh)).contains (Ty.obj sh) = true := by
  have hshow : (Ty.obj (Shape.Static ||| sh)).contains (Ty.obj sh)
      = Ty.contains ⟨PType.Object, Shape.Static ||| sh⟩ ⟨PType.Object, sh⟩ := rfl
  rw [hshow, contains_mk]
  have hbeq : (PType.Object &&& PType.Object == PType.Object) = true := by decide
  have h127 : (PType.Object &&& PType.Object) &&& complU8 PType.Object = 0 := by decide
  simp only [hbeq, Bool.not_true, Bool.or_self, Bool.false_eq_true, if_false,
    h127, bne_self_eq_false]
  by_cases hany : sh = Shape.Any
  · simp [hany]
  · have hself : sh &&& (Shape.Static ||| sh) = sh := land_lor_self sh Shape.Static
    simp [hany, hself, hne]

/-- C2 counterexample: a `Static`-shaped type *does* contain the
corresponding non-static instance type, because `Type::contains` only
intersects the two shape bitsets (`(rhs.shape & self.shape) != 0`):
`Static|Array ⊇ Array` holds. -/
theorem static_shape_contains_instance_cx :
    (Ty.obj (Shape.Static ||| Shape.Array)).contains (Ty.obj Shape.Array) = true := by
  decide

/-- C2 (amended): the containment laws as the code satisfies them:
`S ⊇ S` for every type with a non-empty ptype whose shape is non-empty
whenever the ptype is exactly `Object`; the `Any` type constant
contains every such `S`; the pure `Object` type constant contains every
such `S` that has the `Object` ptype bit; and a `Static`-shaped object
type always contains the corresponding instance type (the original
`Static ⊉ instance-of-T` direction is false, see the counterexample). -/
theorem containment_laws (S : Ty) (hp : S.ptype < 256) (hs : S.shape < 2 ^ 64)
    (hne : S.ptype ≠ 0) (hpo : S.ptype = PType.Object → S.shape ≠ 0) :
    S.contains S = true
    ∧ types.Any.contains S = true
    ∧ (S.ptype &&& PType.Object = PType.Object → S.shape ≠ 0 →
        types.Object.contains S = true)
    ∧ (∀ sh : Nat, sh ≠ 0 →
        (Ty.obj (Shape.Static ||| sh)).contains (Ty.obj sh) = true) := by
  obtain ⟨p, s⟩ := S
  exact ⟨contains_self hp hne hpo, any_contains hp hs hne hpo,
    fun h1 h2 => object_contains hp hs h1 h2,
    fun sh h => static_contains_instance h⟩

theorem containment_laws_witness :
    (types.Array).contains types.Array = true
    ∧ types.Any.contains types.Array = true :=
  ⟨(containment_laws types.Array (by decide) (by decide) (by decide)
      (by decide)).1,
   (containment_laws types.Array (by decide) (by decide) (by decide)
      (by decide)).2.1⟩

end Zebra

namespace Zebra

/-! ## C1 — BinaryOp output typing -/

/-- C1 counterexample: for `&&` on two known numeric (`Int`)
operands, the analyzer assigns `Bool` to the output — not `Int` or
`Float` as the claim requires of every operator. -/
theorem binaryOp_logicAnd_output_bool_cx :
    (TypeAnalyzer.analyzeBinaryOp twoIntMap BinaryOperators.LogicAnd 0 1 2).map
        (fun m => m 2) = some (some types.Bool)
    ∧ types.Bool ≠ types.Int ∧ types.Bool ≠ types.Float
    ∧ types.Int.is_numeric = true ∧ types.Int.is_unknown = false := by
  decide

/-- Evaluation of the fresh-insert case of `set_type`. -/
lemma set_type_fresh (m : TypeMap) (v : Nat) (t : Ty) (h : m v = none) :
    TypeAnalyzer.set_type m v t v = some t := by
  simp [TypeAnalyzer.set_type, h]

/-- The `BinaryOp` arm on operands whose types are present and not
Unknown: no promotion happens and the output is set per the operator
table. -/
lemma analyzeBinaryOp_known (m : TypeMap) (op : BinaryOperators)
    (lhs rhs out : Nat) (tl tr : Ty)
    (hl : m lhs = some tl) (hr : m rhs = some tr)
    (hlu : tl.is_unknown = false) (hru : tr.is_unknown = false) :
    TypeAnalyzer.analyzeBinaryOp m op lhs rhs out
      = (match op with
         | .Add =>
             if tl.is_numeric && tr.is_numeric then
               if tl.is_integer && tr.is_integer then
                 some (TypeAnalyzer.set_type m out types.Int)
               else some (TypeAnalyzer.set_type m out types.Float)
             else some (TypeAnalyzer.set_type m out types.String)
         | .Sub | .Mul =>
             if tl.is_integer && tr.is_integer then
               some (TypeAnalyzer.set_type m out types.Int)
             else some (TypeAnalyzer.set_type m out types.Float)
         | .Div => some (TypeAnalyzer.set_type m out types.Float)
         | .Mod => some (TypeAnalyzer.set_type m out types.Int)
         | .BitAnd | .BitOr | .Xor | .LShift | .RShift =>
             some (TypeAnalyzer.set_type m out types.Int)
         | .LogicAnd | .LogicOr =>
             some (TypeAnalyzer.set_type m out types.Bool)) := by
  unfold TypeAnalyzer.analyzeBinaryOp
  rw [hl]; simp only [Option.bind_eq_bind, Option.some_bind]
  rw [hlu]; simp only [Bool.false_eq_true, if_false]
  rw [hr]; simp only [Option.bind_eq_bind, Option.some_bind]
  rw [hru]; simp only [Bool.false_eq_true, if_false]
  rw [hl]; simp only [Option.bind_eq_bind, Option.some_bind]
  rw [hr]; simp only [Option.bind_eq_bind, Option.some_bind]
  simp only [Option.pure_def]

/-- C1 (amended): for every binary operator except `&&` and `||`
(which output `Bool`), a `BinaryOp` on operands with known (`Unknown`
clear) numeric types assigns to a fresh output variable exactly the
§4.3 type, which is exclusively `Int` or exclusively `Float`. -/
theorem binaryOp_known_numeric_output (m : TypeMap) (op : BinaryOperators)
    (lhs rhs out : Nat) (tl tr : Ty)
    (hl : m lhs = some tl) (hr : m rhs = some tr)
    (hlu : tl.is_unknown = false) (hru : tr.is_unknown = false)
    (hln : tl.is_numeric = true) (hrn : tr.is_numeric = true)
    (hout : m out = none)
    (ha : op ≠ BinaryOperators.LogicAnd) (ho : op ≠ BinaryOperators.LogicOr) :
    (TypeAnalyzer.analyzeBinaryOp m op lhs rhs out).map (fun m' => m' out)
      = some (some (binaryOpNumericRule op tl tr))
    ∧ (binaryOpNumericRule op tl tr = types.Int
        ∨ binaryOpNumericRule op tl tr = types.Float) := by
  constructor
  · rw [analyzeBinaryOp_known m op lhs rhs out tl tr hl hr hlu hru]
    cases op with
    | Add =>
        simp only [hln, hrn, Bool.and_self, if_true]
        by_cases hint : (tl.is_integer && tr.is_integer) = true <;>
          simp [hint, set_type_fresh m out _ hout, binaryOpNumericRule]
    | Sub =>
        by_cases hint : (tl.is_integer && tr.is_integer) = true <;>
          simp [hint, set_type_fresh m out _ hout, binaryOpNumericRule]
    | Mul =>
        by_cases hint : (tl.is_integer && tr.is_integer) = true <;>
          simp [hint, set_type_fresh m out _ hout, binaryOpNumericRule]
    | Div => simp [set_type_fresh m out _ hout, binaryOpNumericRule]
    | Mod => simp [set_type_fresh m out _ hout, binaryOpNumericRule]
    | BitAnd => simp [set_type_fresh m out _ hout, binaryOpNumericRule]
    | BitOr => simp [set_type_fresh m out _ hout, binaryOpNumericRule]
    | Xor => simp [set_type_fresh m out _ hout, binaryOpNumericRule]
    | LShift => simp [set_type_fresh m out _ hout, binaryOpNumericRule]
    | RShift => simp [set_type_fresh m out _ hout, binaryOpNumericRule]
    | LogicAnd => exact absurd rfl ha
    | LogicOr => exact absurd rfl ho
  · cases op <;>
      simp only [binaryOpNumericRule] <;>
      first
        | exact absurd rfl ha
        | exact absurd rfl ho
        | exact Or.inr rfl
        | exact Or.inl rfl
        | (by_cases hint : (tl.is_integer && tr.is_integer) = true <;>
            simp [hint])

theorem binaryOp_known_numeric_output_witness :
    (TypeAnalyzer.analyzeBinaryOp intBoolMap BinaryOperators.Sub 0 1 2).map
        (fun m' => m' 2)
      = some (some (binaryOpNumericRule BinaryOperators.Sub types.Int types.Bool)) :=
  (binaryOp_known_numeric_output intBoolMap BinaryOperators.Sub 0 1 2
    types.Int types.Bool rfl rfl (by decide) (by decide) (by decide) (by decide)
    rfl (by decide) (by decide)).1

/-! ## C3 — StoreElement promotion -/

/-- C3: on `StoreElement(v0, v1, v2)` with `v2` Unknown, the
analyzer leaves the value `v2` at `Unknown` and instead unions
`Int|Float|Object` (ptype `131`, shape `Any`) into the *receiver*
`v0`'s record — the `if` tests `value` but calls `set_type(array, …)`. -/
theorem storeElement_mutates_receiver_not_value :
    (TypeAnalyzer.analyzeStoreElement storeElemMap 0 1 2).map
        (fun m => (m 0, m 1, m 2))
      = some (some ⟨131, Shape.Any⟩, some types.Int, some types.Unknown)
    ∧ Ty.mk 131 Shape.Any ≠ types.Array
    ∧ types.Unknown ≠ (types.Int.union types.Float).union types.Object := by
  decide

end Zebra

namespace Zebra

/-! ## C4 — scope-stack depth -/

lemma scope_run_length : ∀ (l : List Inst) (n : Nat) (s : List (List Nat)),
    s.length = n + 1 → ScopeAnalyzer.balanced n l = true →
    (ScopeAnalyzer.run s l).length = ScopeAnalyzer.openBlocks n l + 1 := by
  intro l
  induction l with
  | nil =>
      intro n s h _
      simpa [ScopeAnalyzer.run, ScopeAnalyzer.openBlocks] using h
  | cons i rest ih =>
      intro n s hlen hbal
      obtain ⟨top, t, rfl⟩ : ∃ top t, s = top :: t := by
        cases s with
        | nil => simp at hlen
        | cons a b => exact ⟨a, b, rfl⟩
      have htlen : t.length = n := by simpa using hlen
      simp only [ScopeAnalyzer.balanced, Bool.and_eq_true] at hbal
      obtain ⟨hchk, hbal'⟩ := hbal
      simp only [ScopeAnalyzer.run, ScopeAnalyzer.openBlocks]
      apply ih
      · unfold ScopeAnalyzer.analyze
        cases hend : i.operation.is_block_end <;>
          cases hstart : i.operation.is_block_start <;>
          simp only [hend, hstart, if_true, if_false, Bool.false_eq_true,
            Bool.true_eq_false, List.tail_cons, List.length_cons] <;>
          simp only [hend, Bool.not_false, Bool.not_true, Bool.false_or,
            Bool.true_or, decide_eq_true_eq] at hchk <;>
          omega
      · exact hbal'

/-- C4 counterexample: on the unmatched sequence `[EndIf]` the
analyzer pops the single global scope (the `debug_assert` guarding the
pop is compiled out in release builds), leaving depth `0`, while
`1 +` the number of currently-open block starts is `1`. -/
theorem scope_depth_unmatched_end_cx :
    (ScopeAnalyzer.run ScopeAnalyzer.new [endIfInst]).length = 0
    ∧ ScopeAnalyzer.openBlocks 0 [endIfInst] + 1 = 1
    ∧ (ScopeAnalyzer.run ScopeAnalyzer.new [endIfInst]).length
        ≠ ScopeAnalyzer.openBlocks 0 [endIfInst] + 1 := by decide

/-- C4 (amended): after processing any instruction sequence whose
block-ends are always matched by an open block start, the scope-stack
depth equals `1 +` the number of currently-open block starts (a
block-end pops one scope, a block-start pushes one seeded with the
temps, and an instruction that is both — `BeginElse` — leaves the
depth unchanged). -/
theorem scope_depth_invariant (l : List Inst)
    (h : ScopeAnalyzer.balanced 0 l = true) :
    (ScopeAnalyzer.run ScopeAnalyzer.new l).length
      = ScopeAnalyzer.openBlocks 0 l + 1 :=
  scope_run_length l 0 ScopeAnalyzer.new rfl h

def loadIntInst : Inst := ⟨Operation.LoadInt 5, [], [1], []⟩
def beginElseInst : Inst := ⟨Operation.BeginElse, [], [], []⟩

theorem scope_depth_invariant_witness :
    (ScopeAnalyzer.run ScopeAnalyzer.new
        [beginIfInst, loadIntInst, beginElseInst, endIfInst]).length
      = ScopeAnalyzer.openBlocks 0
          [beginIfInst, loadIntInst, beginElseInst, endIfInst] + 1 :=
  scope_depth_invariant _ (by decide)

end Zebra

namespace Zebra

/-! ## C5 — context-stack invariant -/

lemma stackOf_ne_nil : ∀ o, ContextAnalyzer.stackOf o ≠ [] := by
  intro o
  match o with
  | [] => simp [ContextAnalyzer.stackOf]
  | false :: r => simp [ContextAnalyzer.stackOf]
  | true :: r =>
      simp only [ContextAnalyzer.stackOf]
      split <;> simp

set_option maxRecDepth 4000 in
lemma u8_lor2_lt : ∀ x < 256, x ||| 2 < 256 := by decide

set_option maxRecDepth 4000 in
lemma u8_lor2_ne_zero : ∀ x < 256, x ||| 2 ≠ 0 := by decide

set_option maxRecDepth 4000 in
lemma u8_lor2_ne_one : ∀ x < 256, x ||| 2 ≠ 1 := by decide

set_option maxRecDepth 4000 in
lemma u8_lor2_clear : ∀ x < 256, x &&& 2 ≠ 2 → (x ||| 2) &&& 253 = x := by decide

set_option maxRecDepth 4000 in
lemma u8_lor2_land1 : ∀ x < 256, (x ||| 2) &&& 1 = x &&& 1 := by decide

lemma stackOf_cur_lt :
    ∀ o, ContextAnalyzer.cur_context (ContextAnalyzer.stackOf o) < 256 := by
  intro o
  induction o with
  | nil => decide
  | cons b r ih =>
      cases b with
      | false =>
          simp [ContextAnalyzer.stackOf, ContextAnalyzer.cur_context,
            ContextAnalyzer.FUNCTION_CONTEXT]
      | true =>
          simp only [ContextAnalyzer.stackOf]
          split
          · simp [ContextAnalyzer.cur_context, ContextAnalyzer.LOOP_CONTEXT]
          · simpa [ContextAnalyzer.cur_context] using u8_lor2_lt _ ih

end Zebra

namespace Zebra

lemma stackOf_cur_ne_zero :
    ∀ o, ContextAnalyzer.cur_context (ContextAnalyzer.stackOf o) ≠ 0 := by
  intro o
  induction o with
  | nil => decide
  | cons b r ih =>
      cases b with
      | false =>
          simp [ContextAnalyzer.stackOf, ContextAnalyzer.cur_context,
            ContextAnalyzer.FUNCTION_CONTEXT]
      | true =>
          simp only [ContextAnalyzer.stackOf]
          split
          · simp [ContextAnalyzer.cur_context, ContextAnalyzer.LOOP_CONTEXT]
          · simpa [ContextAnalyzer.cur_context] using
              u8_lor2_ne_zero _ (stackOf_cur_lt r)

lemma cons_headD_tail {s : List Nat} (h : s ≠ []) :
    s.headD 0 :: s.tail = s := by
  cases s with
  | nil => exact absurd rfl h
  | cons a t => rfl

end Zebra

namespace Zebra

/-- The five mutually-exclusive loop/function flag profiles of an
operation (only `BeginFor` is a loop start, `EndFor` a loop end,
`BeginFunctionDefinition` a function start, `EndFunctionDefinition` a
function end). -/
lemma operation_flags (o : Operation) :
    (o.is_loop_start = true ∧ o.is_loop_end = false
      ∧ o.is_function_start = false ∧ o.is_function_end = false)
    ∨ (o.is_loop_start = false ∧ o.is_loop_end = true
      ∧ o.is_function_start = false ∧ o.is_function_end = false)
    ∨ (o.is_loop_start = false ∧ o.is_loop_end = false
      ∧ o.is_function_start = true ∧ o.is_function_end = false)
    ∨ (o.is_loop_start = false ∧ o.is_loop_end = false
      ∧ o.is_function_start = false ∧ o.is_function_end = true)
    ∨ (o.is_loop_start = false ∧ o.is_loop_end = false
      ∧ o.is_function_start = false ∧ o.is_function_end = false) := by
  cases o <;>
    (simp only [Operation.is_loop_start, Operation.is_loop_end,
      Operation.is_function_start, Operation.is_function_end,
      Operation.attributes, Attributes.IS_LOOP_START, Attributes.IS_LOOP_END,
      Attributes.IS_FUNCTION_START, Attributes.IS_FUNCTION_END,
      Attributes.IS_BLOCK_START, Attributes.IS_BLOCK_END,
      Attributes.IS_PRIMITIVE, Attributes.NONE]
     decide)

lemma analyze_plain (i : Inst) (h1 : i.operation.is_loop_start = false)
    (h2 : i.operation.is_loop_end = false)
    (h3 : i.operation.is_function_start = false)
    (h4 : i.operation.is_function_end = false) (s : List Nat) :
    ContextAnalyzer.analyze s i = s := by
  simp [ContextAnalyzer.analyze, h1, h2, h3, h4]

lemma analyze_loop_start (i : Inst) (h1 : i.operation.is_loop_start = true)
    (h2 : i.operation.is_loop_end = false)
    (h3 : i.operation.is_function_start = false)
    (h4 : i.operation.is_function_end = false) (s : List Nat) :
    ContextAnalyzer.analyze s i
      = if ContextAnalyzer.in_loop s then ContextAnalyzer.LOOP_CONTEXT :: s
        else (ContextAnalyzer.cur_context s ||| ContextAnalyzer.LOOP_CONTEXT)
          :: s.tail := by
  by_cases hin : ContextAnalyzer.in_loop s <;>
    simp [ContextAnalyzer.analyze, h1, h2, h3, h4, hin]

lemma analyze_loop_end (i : Inst) (h1 : i.operation.is_loop_start = false)
    (h2 : i.operation.is_loop_end = true)
    (h3 : i.operation.is_function_start = false)
    (h4 : i.operation.is_function_end = false) (s : List Nat) :
    ContextAnalyzer.analyze s i
      = (if (ContextAnalyzer.cur_context s
              &&& (255 ^^^ ContextAnalyzer.LOOP_CONTEXT)) = 0 then
          s.tail
        else (ContextAnalyzer.cur_context s
              &&& (255 ^^^ ContextAnalyzer.LOOP_CONTEXT)) :: s.tail) := by
  by_cases hz : (ContextAnalyzer.cur_context s
      &&& (255 ^^^ ContextAnalyzer.LOOP_CONTEXT)) = 0 <;>
    simp [ContextAnalyzer.analyze, h1, h2, h3, h4, ContextAnalyzer.cur_context,
      ContextAnalyzer.NONE, hz]

lemma analyze_function_start (i : Inst)
    (h1 : i.operation.is_loop_start = false)
    (h2 : i.operation.is_loop_end = false)
    (h3 : i.operation.is_function_start = true)
    (h4 : i.operation.is_function_end = false) (s : List Nat) :
    ContextAnalyzer.analyze s i = ContextAnalyzer.FUNCTION_CONTEXT :: s := by
  simp [ContextAnalyzer.analyze, h1, h2, h3, h4]

lemma analyze_function_end (i : Inst)
    (h1 : i.operation.is_loop_start = false)
    (h2 : i.operation.is_loop_end = false)
    (h3 : i.operation.is_function_start = false)
    (h4 : i.operation.is_function_end = true) (s : List Nat) :
    ContextAnalyzer.analyze s i = s.tail := by
  simp [ContextAnalyzer.analyze, h1, h2, h3, h4]

end Zebra

namespace Zebra

lemma context_step (i : Inst) (opens o2 : List Bool)
    (h : ContextAnalyzer.checkStep opens i = some o2) :
    ContextAnalyzer.analyze (ContextAnalyzer.stackOf opens) i
      = ContextAnalyzer.stackOf o2 := by
  rcases operation_flags i.operation with
    ⟨h1, h2, h3, h4⟩ | ⟨h1, h2, h3, h4⟩ | ⟨h1, h2, h3, h4⟩
      | ⟨h1, h2, h3, h4⟩ | ⟨h1, h2, h3, h4⟩
  · -- loop start (BeginFor)
    simp only [ContextAnalyzer.checkStep, h1, if_true, Option.some_inj] at h
    subst h
    rw [analyze_loop_start i h1 h2 h3 h4]
    rfl
  · -- loop end (EndFor)
    simp only [ContextAnalyzer.checkStep, h1, h2, Bool.false_eq_true, if_false,
      if_true] at h
    cases opens with
    | nil => simp at h
    | cons b r =>
        cases b with
        | false => simp at h
        | true =>
            simp only [Option.some_inj] at h
            subst h
            rw [analyze_loop_end i h1 h2 h3 h4]
            by_cases hin : ContextAnalyzer.in_loop (ContextAnalyzer.stackOf r)
            · have hs : ContextAnalyzer.stackOf (true :: r)
                  = ContextAnalyzer.LOOP_CONTEXT :: ContextAnalyzer.stackOf r := by
                simp [ContextAnalyzer.stackOf, hin]
              rw [hs]
              simp only [ContextAnalyzer.cur_context, List.headD_cons,
                List.tail_cons, ContextAnalyzer.LOOP_CONTEXT,
                (by decide : (1 : Nat) <<< 1 = 2),
                (by decide : (2 : Nat) &&& (255 ^^^ 2) = 0), if_true]
            · have hs : ContextAnalyzer.stackOf (true :: r)
                  = (ContextAnalyzer.cur_context (ContextAnalyzer.stackOf r)
                      ||| ContextAnalyzer.LOOP_CONTEXT)
                    :: (ContextAnalyzer.stackOf r).tail := by
                simp [ContextAnalyzer.stackOf, hin]
              rw [hs]
              have hcur : ContextAnalyzer.cur_context (ContextAnalyzer.stackOf r)
                  &&& 2 ≠ 2 := by
                simpa [ContextAnalyzer.in_loop, ContextAnalyzer.LOOP_CONTEXT]
                  using hin
              have hclear := u8_lor2_clear _ (stackOf_cur_lt r) hcur
              simp only [ContextAnalyzer.cur_context, List.headD_cons,
                List.tail_cons, ContextAnalyzer.LOOP_CONTEXT,
                (by decide : (1 : Nat) <<< 1 = 2),
                (by decide : (255 : Nat) ^^^ 2 = 253)] at hclear ⊢
              rw [hclear]
              rw [if_neg (by simpa [ContextAnalyzer.cur_context]
                    using stackOf_cur_ne_zero r)]
              simpa [ContextAnalyzer.cur_context]
                using cons_headD_tail (stackOf_ne_nil r)
  · -- function start
    simp only [ContextAnalyzer.checkStep, h1, h2, h3, Bool.false_eq_true,
      if_false, if_true, Option.some_inj] at h
    subst h
    rw [analyze_function_start i h1 h2 h3 h4]
    rfl
  · -- function end
    simp only [ContextAnalyzer.checkStep, h1, h2, h3, h4, Bool.false_eq_true,
      if_false, if_true] at h
    cases opens with
    | nil => simp at h
    | cons b r =>
        cases b with
        | true => simp at h
        | false =>
            simp only [Option.some_inj] at h
            subst h
            rw [analyze_function_end i h1 h2 h3 h4]
            rfl
  · -- no loop/function flags
    simp only [ContextAnalyzer.checkStep, h1, h2, h3, h4, Bool.false_eq_true,
      if_false, Option.some_inj] at h
    subst h
    exact analyze_plain i h1 h2 h3 h4 _

end Zebra

namespace Zebra

lemma context_run_stackOf : ∀ (l : List Inst) (opens o2 : List Bool),
    ContextAnalyzer.checkNest opens l = some o2 →
    ContextAnalyzer.run (ContextAnalyzer.stackOf opens) l
      = ContextAnalyzer.stackOf o2 := by
  intro l
  induction l with
  | nil =>
      intro opens o2 h
      simp only [ContextAnalyzer.checkNest, Option.some_inj] at h
      subst h
      rfl
  | cons i rest ih =>
      intro opens o2 h
      simp only [ContextAnalyzer.checkNest, Option.bind_eq_bind] at h
      cases hs : ContextAnalyzer.checkStep opens i with
      | none => rw [hs] at h; simp at h
      | some mid =>
          rw [hs] at h
          simp only [Option.some_bind] at h
          simp only [ContextAnalyzer.run]
          rw [context_step i opens mid hs]
          exact ih mid o2 h

lemma stackOf_cur_global_iff :
    ∀ o, ContextAnalyzer.cur_context (ContextAnalyzer.stackOf o)
        = ContextAnalyzer.GLOBAL_CONTEXT ↔ o = [] := by
  intro o
  cases o with
  | nil => simp [ContextAnalyzer.stackOf, ContextAnalyzer.cur_context]
  | cons b r =>
      cases b with
      | false =>
          simp [ContextAnalyzer.stackOf, ContextAnalyzer.cur_context,
            ContextAnalyzer.FUNCTION_CONTEXT, ContextAnalyzer.GLOBAL_CONTEXT]
      | true =>
          simp only [ContextAnalyzer.stackOf]
          split
          · simp [ContextAnalyzer.cur_context, ContextAnalyzer.LOOP_CONTEXT,
              ContextAnalyzer.GLOBAL_CONTEXT]
          · have hne1 := u8_lor2_ne_one _ (stackOf_cur_lt r)
            refine ⟨fun hcur => absurd ?_ (by simpa using hne1),
              fun hcon => by simp at hcon⟩
            simpa [ContextAnalyzer.cur_context, ContextAnalyzer.LOOP_CONTEXT,
              ContextAnalyzer.GLOBAL_CONTEXT,
              (by decide : (1 : Nat) <<< 1 = 2),
              (by decide : (1 : Nat) <<< 0 = 1)] using hcur

lemma stackOf_last_global :
    ∀ o, ∃ g, (ContextAnalyzer.stackOf o).getLast? = some g
        ∧ g &&& ContextAnalyzer.GLOBAL_CONTEXT = ContextAnalyzer.GLOBAL_CONTEXT := by
  intro o
  induction o with
  | nil => exact ⟨ContextAnalyzer.GLOBAL_CONTEXT, rfl, rfl⟩
  | cons b r ih =>
      obtain ⟨g, hg, hgb⟩ := ih
      cases b with
      | false =>
          refine ⟨g, ?_, hgb⟩
          obtain ⟨x, xs, hx⟩ : ∃ x xs, ContextAnalyzer.stackOf r = x :: xs := by
            cases hsr : ContextAnalyzer.stackOf r with
            | nil => exact absurd hsr (stackOf_ne_nil r)
            | cons x xs => exact ⟨x, xs, rfl⟩
          simp only [ContextAnalyzer.stackOf, hx, List.getLast?_cons_cons]
          rw [← hx, hg]
      | true =>
          simp only [ContextAnalyzer.stackOf]
          split
          · refine ⟨g, ?_, hgb⟩
            obtain ⟨x, xs, hx⟩ : ∃ x xs, ContextAnalyzer.stackOf r = x :: xs := by
              cases hsr : ContextAnalyzer.stackOf r with
              | nil => exact absurd hsr (stackOf_ne_nil r)
              | cons x xs => exact ⟨x, xs, rfl⟩
            simp only [hx, List.getLast?_cons_cons]
            rw [← hx, hg]
          · obtain ⟨x, xs, hx⟩ : ∃ x xs, ContextAnalyzer.stackOf r = x :: xs := by
              cases hsr : ContextAnalyzer.stackOf r with
              | nil => exact absurd hsr (stackOf_ne_nil r)
              | cons x xs => exact ⟨x, xs, rfl⟩
            cases xs with
            | nil =>
                -- the stack below is a single element `x = g`
                have hxg : x = g := by
                  rw [hx] at hg
                  simpa using hg
                refine ⟨ContextAnalyzer.cur_context (ContextAnalyzer.stackOf r)
                    ||| ContextAnalyzer.LOOP_CONTEXT, ?_, ?_⟩
                · simp [hx]
                · have hlt : x < 256 := by
                    have := stackOf_cur_lt r
                    simpa [hx, ContextAnalyzer.cur_context] using this
                  have h1 := u8_lor2_land1 x hlt
                  simp only [hx, ContextAnalyzer.cur_context, List.headD_cons,
                    ContextAnalyzer.LOOP_CONTEXT, ContextAnalyzer.GLOBAL_CONTEXT,
                    (by decide : (1 : Nat) <<< 1 = 2),
                    (by decide : (1 : Nat) <<< 0 = 1)] at hgb h1 ⊢
                  rw [h1, hxg]
                  exact hgb
            | cons y ys =>
                refine ⟨g, ?_, hgb⟩
                simp only [hx, List.tail_cons, List.getLast?_cons_cons]
                rw [hx] at hg
                simpa using hg

end Zebra

namespace Zebra

def beginForInst : Inst :=
  ⟨Operation.BeginFor "++" Comparators.LessThan, [1, 2, 3], [], [4]⟩
def endFunInst : Inst := ⟨Operation.EndFunctionDefinition, [], [], []⟩
def endForInst : Inst := ⟨Operation.EndFor, [], [], []⟩

/-- C5 counterexample: `[BeginFunctionDefinition, BeginFor,
EndFunctionDefinition]` satisfies the claim's hypotheses (it has no
loop-end, and the only function-end is processed with `in_function`
true), yet afterwards the top of the context stack is `GLOBAL` while
one block (the loop) is still open: popping the function context also
discards the `LOOP` bit that was OR-ed into it. -/
theorem context_top_global_inside_open_loop_cx :
    ([beginFunInst, beginForInst, endFunInst].all
        (fun i => !i.operation.is_loop_end)) = true
    ∧ ContextAnalyzer.in_function
        (ContextAnalyzer.run ContextAnalyzer.new [beginFunInst, beginForInst])
        = true
    ∧ ContextAnalyzer.cur_context
        (ContextAnalyzer.run ContextAnalyzer.new
          [beginFunInst, beginForInst, endFunInst])
        = ContextAnalyzer.GLOBAL_CONTEXT
    ∧ ([beginFunInst, beginForInst, endFunInst].countP
          (fun i => i.operation.is_loop_start || i.operation.is_function_start))
        - ([beginFunInst, beginForInst, endFunInst].countP
          (fun i => i.operation.is_loop_end || i.operation.is_function_end))
        = 1 := by
  decide

/-- C5 (amended): for every *properly nested* instruction sequence
(each loop-end closes an innermost open loop, each function-end an
innermost open function — exactly what the code's `debug_assert`s
demand), the context-stack depth stays at least 1, the bottom element
carries the `GLOBAL` bit, and the top equals `GLOBAL` exactly when no
loop or function block is open. -/
theorem context_stack_invariant (l : List Inst) (opens : List Bool)
    (h : ContextAnalyzer.checkNest [] l = some opens) :
    1 ≤ (ContextAnalyzer.run ContextAnalyzer.new l).length
    ∧ (ContextAnalyzer.cur_context (ContextAnalyzer.run ContextAnalyzer.new l)
        = ContextAnalyzer.GLOBAL_CONTEXT ↔ opens = [])
    ∧ ∃ g, (ContextAnalyzer.run ContextAnalyzer.new l).getLast? = some g
        ∧ g &&& ContextAnalyzer.GLOBAL_CONTEXT = ContextAnalyzer.GLOBAL_CONTEXT := by
  have hr : ContextAnalyzer.run ContextAnalyzer.new l
      = ContextAnalyzer.stackOf opens := context_run_stackOf l [] opens h
  rw [hr]
  refine ⟨?_, stackOf_cur_global_iff opens, stackOf_last_global opens⟩
  have := stackOf_ne_nil opens
  cases hso : ContextAnalyzer.stackOf opens with
  | nil => exact absurd hso this
  | cons a t => simp

theorem context_stack_invariant_witness :
    1 ≤ (ContextAnalyzer.run ContextAnalyzer.new
        [beginFunInst, beginForInst, endForInst, endFunInst]).length
    ∧ (ContextAnalyzer.cur_context (ContextAnalyzer.run ContextAnalyzer.new
        [beginFunInst, beginForInst, endForInst, endFunInst])
        = ContextAnalyzer.GLOBAL_CONTEXT ↔ ([] : List Bool) = []) :=
  ⟨(context_stack_invariant _ [] (by decide)).1,
   (context_stack_invariant _ [] (by decide)).2.1⟩

end Zebra

namespace Zebra

/-! ## C6 — runtime method lookup -/

lemma collectMethods_eq (is_static : Bool) (l : List JSBuiltin) :
    JSRuntime.collectMethods is_static l
      = (if l.all (fun b =>
            (if is_static then b.static_methods else b.methods).isSome) then
          some ((l.map (fun b =>
            (if is_static then b.static_methods else b.methods).getD [])).flatten)
        else none) := by
  cases is_static with
  | false =>
      induction l with
      | nil => simp [JSRuntime.collectMethods]
      | cons c rest ih =>
          simp only [JSRuntime.collectMethods, Option.bind_eq_bind,
            List.all_cons, Bool.and_eq_true, List.map_cons, List.flatten_cons,
            Bool.false_eq_true, if_false] at ih ⊢
          cases hc : c.methods with
          | none => simp [hc]
          | some ms =>
              simp only [hc, Option.some_bind, Option.isSome_some, true_and]
              rw [ih]
              by_cases hall : rest.all (fun b => b.methods.isSome) = true
              · simp [hall]
              · simp only [Bool.not_eq_true] at hall
                simp [hall]
  | true =>
      induction l with
      | nil => simp [JSRuntime.collectMethods]
      | cons c rest ih =>
          simp only [JSRuntime.collectMethods, Option.bind_eq_bind,
            List.all_cons, Bool.and_eq_true, List.map_cons, List.flatten_cons,
            if_true] at ih ⊢
          cases hc : c.static_methods with
          | none => simp [hc]
          | some ms =>
              simp only [hc, Option.some_bind, Option.isSome_some, true_and]
              rw [ih]
              by_cases hall : rest.all (fun b => b.static_methods.isSome) = true
              · simp [hall]
              · simp only [Bool.not_eq_true] at hall
                simp [hall]

/-- C6 counterexample: for the pure-`Object` query shape on the
real catalogue, the `Object` builtin's shape *does* contain the
normalized query shape, yet `get_methods` returns `None` — the
`candidate.methods.as_ref()?` aborts because the `Object` builtin has
no instance-method list. -/
theorem get_methods_object_none_cx :
    JSRuntime.get_methods JSRuntime.builtins Shape.Object = none
    ∧ Shape.shape_contains JSRuntime.objectBuiltin.shape
        (Shape.fetch_clear_static Shape.Object).2 = true
    ∧ JSRuntime.objectBuiltin ∈ JSRuntime.builtins := by
  refine ⟨by decide, by decide, by decide⟩

/-- C6 (amended): `get_methods` equals the amended specification
for every runtime catalogue and query shape: candidates are filtered
with the Object-bit adjustment on the builtin side, and the result is
`None` exactly when there is no candidate or some candidate lacks the
requested list, else the concatenation of the candidates' lists. -/
theorem get_methods_eq_spec (builtins : List JSBuiltin) (shape : Nat) :
    JSRuntime.get_methods builtins shape
      = JSRuntime.get_methods_spec builtins shape := by
  unfold JSRuntime.get_methods JSRuntime.get_methods_spec
      Shape.fetch_clear_static
  by_cases hpure :
      Shape.is_pure_object (shape &&& complU64 Shape.Static) = true <;>
    simp [hpure, collectMethods_eq]

end Zebra

namespace Zebra

/-! ## C7 — REPL retry logic -/

/-- C7: the top-level `execute` returns the first success with no
reset; on a first failure it resets once and returns the second
result; a second failure is fatal to the worker.  A child that writes
the bytes of `"exit"` where a status is expected makes `execute_impl`
fail with the protocol error (never a `Status`), which is then reset
and retried once. -/
theorem repl_execute_retries_once :
    (∀ (c : ReturnCode) (r2 : Except ReplError ReturnCode),
        ReplConnection.execute (Except.ok c) r2 = ExecOutcome.Normal 0 c)
    ∧ (∀ (e : ReplError) (c : ReturnCode),
        ReplConnection.execute (Except.error e) (Except.ok c)
          = ExecOutcome.Normal 1 c)
    ∧ (∀ e e' : ReplError,
        ReplConnection.execute (Except.error e) (Except.error e')
          = ExecOutcome.Fatal)
    ∧ (∀ tw : Nat → TryWait,
        ReplConnection.classifyRecv tw
          (Except.ok (CtrlCmd.fromI32 (i32OfLeBytes 0x65 0x78 0x69 0x74)))
          = Except.error (ReplError.Other "Invalid message received"))
    ∧ (∀ (tw : Nat → TryWait) (c : ReturnCode),
        ReplConnection.execute
          (ReplConnection.classifyRecv tw
            (Except.ok (CtrlCmd.fromI32 (i32OfLeBytes 0x65 0x78 0x69 0x74))))
          (Except.ok c)
          = ExecOutcome.Normal 1 c) :=
  ⟨fun _ _ => rfl, fun _ _ => rfl, fun _ _ => rfl,
   fun _ => rfl, fun _ _ => rfl⟩

/-! ## C9 — determinism of the lifted output -/

/-- C9 counterexample: with the generated program held completely
fixed (one `CreateArray` with the same output and inputs), two
different lifter RNG states — and the lifter's `Probablity` is seeded
from the timestamp counter by `Lifter::new`, independently of the
program builder's seed — produce different JavaScript bytes, so a
fixed builder seed does not make the output byte-identical across
runs. -/
theorem lift_createArray_rng_dependent_cx :
    Lifter.liftCreateArray 1 3 [0, 0, 0] = "var v3 = [v0, v0, v0];"
    ∧ Lifter.liftCreateArray 2 3 [0, 0, 0] = "var v3 = Array(v0, v0, v0);"
    ∧ Lifter.liftCreateArray 1 3 [0, 0, 0]
        ≠ Lifter.liftCreateArray 2 3 [0, 0, 0] := by
  refine ⟨by decide, by decide, by decide⟩

/-- C9 (amended): the lifted bytes for a `CreateArray` are a pure
function of the instruction and the lifter's own RNG draw: two runs
whose lifter `probablity(0.5)` draws coincide (in addition to the
fixed builder seed and catalogue) produce byte-identical output. -/
theorem lift_createArray_deterministic (s1 s2 out : Nat)
    (inputs : List Nat)
    (h : Probablity.probablityHalf s1 = Probablity.probablityHalf s2) :
    Lifter.liftCreateArray s1 out inputs
      = Lifter.liftCreateArray s2 out inputs := by
  unfold Lifter.liftCreateArray
  rw [h]

theorem lift_createArray_deterministic_witness :
    Lifter.liftCreateArray 1 3 [0, 0, 0]
      = Lifter.liftCreateArray 3 3 [0, 0, 0] :=
  lift_createArray_deterministic 1 3 3 [0, 0, 0] (by decide)

end Zebra

namespace Zebra

/-! ## C10 — Free-mode variable selection -/

lemma chooseBiasedLoop_mem {α : Type} (accept : Nat → Bool) (l : List α)
    (h : l ≠ []) :
    ∀ idxs : List Nat, (∀ i ∈ idxs, i < l.length) →
    ∃ x, Probablity.chooseBiasedLoop accept l idxs = some x ∧ x ∈ l := by
  intro idxs
  induction idxs with
  | nil =>
      intro _
      cases l with
      | nil => exact absurd rfl h
      | cons a t =>
          exact ⟨a, rfl, List.mem_cons_self a t⟩
  | cons i rest ih =>
      intro hidx
      by_cases hacc : accept i = true
      · have hi : i < l.length := hidx i (List.mem_cons_self i rest)
        refine ⟨l.get ⟨i, hi⟩, ?_, List.get_mem l i hi⟩
        simp [Probablity.chooseBiasedLoop, hacc, List.get?_eq_get hi]
      · obtain ⟨x, hx, hmem⟩ :=
          ih (fun j hj => hidx j (List.mem_cons_of_mem i hj))
        refine ⟨x, ?_, hmem⟩
        simp [Probablity.chooseBiasedLoop, hacc, hx]

lemma choose_biased_mem {α : Type} (accept : Nat → Bool) (l : List α)
    (h : l ≠ []) :
    ∃ x, Probablity.choose_biased accept l = some x ∧ x ∈ l := by
  unfold Probablity.choose_biased
  by_cases h01 : l.length = 0 ∨ l.length = 1
  · rw [if_pos h01]
    cases l with
    | nil => exact absurd rfl h
    | cons a t => exact ⟨a, rfl, List.mem_cons_self a t⟩
  · rw [if_neg h01]
    exact chooseBiasedLoop_mem accept l h _
      (fun i hi => by
        have := List.mem_reverse.mp hi
        exact List.mem_range.mp this)

lemma filterByContains_total (typeOf : TypeMap) (rtype : Ty) :
    ∀ vars : List Nat, (∀ v ∈ vars, typeOf v ≠ none) →
    ∃ r, Program.filterByContains typeOf rtype vars = some r
      ∧ (∀ v ∈ r, v ∈ vars) ∧ r.length ≤ vars.length := by
  intro vars
  induction vars with
  | nil => exact fun _ => ⟨[], rfl, by simp, by simp⟩
  | cons v rest ih =>
      intro hv
      obtain ⟨t, ht⟩ : ∃ t, typeOf v = some t := by
        cases htv : typeOf v with
        | none => exact absurd htv (hv v (List.mem_cons_self v rest))
        | some t => exact ⟨t, rfl⟩
      obtain ⟨r, hr, hsub, hlen⟩ :=
        ih (fun w hw => hv w (List.mem_cons_of_mem v hw))
      refine ⟨if t.contains rtype then v :: r else r, ?_, ?_, ?_⟩
      · simp only [Program.filterByContains, ht, hr, Option.bind_eq_bind,
          Option.some_bind, Option.pure_def]
      · intro w hw
        by_cases hc : t.contains rtype = true
        · rw [if_pos hc] at hw
          rcases List.mem_cons.mp hw with rfl | hw'
          · exact List.mem_cons_self w rest
          · exact List.mem_cons_of_mem v (hsub w hw')
        · rw [if_neg hc] at hw
          exact List.mem_cons_of_mem v (hsub w hw)
      · by_cases hc : t.contains rtype = true
        · rw [if_pos hc]
          simpa using hlen
        · rw [if_neg hc]
          simp only [List.length_cons]
          omega

lemma random_element_some {α : Type} (s : Nat) (l : List α) (h : l ≠ [])
    (hlen : l.length < 2 ^ 63) :
    ∃ x, Random.random_element s l = some x := by
  unfold Random.random_element
  have hlpos : (0 : Int) < (l.length : Int) := by
    have := List.length_pos.mpr h
    exact_mod_cast this
  obtain ⟨h1, h2⟩ := @rand_in_range_bounds s 0 (l.length : Int)
    (by norm_num) (by exact_mod_cast hlen) hlpos
  have hidx : (Random.rand_in_range s 0 l.length).toNat < l.length := by omega
  exact ⟨l.get ⟨_, hidx⟩, List.get?_eq_get hidx⟩

lemma scope_length_le_visible (scopes : List (List Nat)) (scope : List Nat)
    (h : scope ∈ scopes) :
    scope.length ≤ (ScopeAnalyzer.get_visible_variables scopes).length := by
  unfold ScopeAnalyzer.get_visible_variables
  rw [List.length_flatten]
  have hmem : scope.length ∈ (scopes.reverse.map List.length) :=
    List.mem_map_of_mem List.length (List.mem_reverse.mpr h)
  exact List.single_le_sum (fun _ _ => Nat.zero_le _) _ hmem

end Zebra

namespace Zebra

/-- C10: in Free mode the selection always yields a variable when
at least one variable is visible (the final fallback draws from the
non-empty visible list, so `random_variable`'s `unwrap` cannot panic);
with no visible variable, the Free-mode fallback indexes an empty
candidate list and panics (`none`) instead of returning a
`Strict`-style failure. -/
theorem random_variable_free_selection (typeOf : TypeMap)
    (scopes : List (List Nat)) (accept : Nat → Bool) (s : Nat) (rtype : Ty)
    (hne : scopes ≠ [])
    (hlen : (ScopeAnalyzer.get_visible_variables scopes).length < 2 ^ 63)
    (htypes : ∀ v ∈ ScopeAnalyzer.get_visible_variables scopes,
        typeOf v ≠ none) :
    (ScopeAnalyzer.get_visible_variables scopes ≠ [] →
      ∃ v, Program.random_variable_of_type typeOf scopes accept s rtype
          Mode.Free = some (some v))
    ∧ (ScopeAnalyzer.get_visible_variables scopes = [] →
      Program.random_variable_of_type typeOf scopes accept s rtype
          Mode.Free = none) := by
  obtain ⟨scope, hs, hmem⟩ := choose_biased_mem accept scopes hne
  have hscope_sub : ∀ v ∈ scope, v ∈ ScopeAnalyzer.get_visible_variables scopes := by
    intro v hv
    unfold ScopeAnalyzer.get_visible_variables
    exact List.mem_flatten.mpr ⟨scope, List.mem_reverse.mpr hmem, hv⟩
  set rty : Ty := Ty.mk (rtype.ptype ||| PType.Unknown) rtype.shape with hrty
  obtain ⟨c1, hc1, hc1sub, hc1len⟩ :=
    filterByContains_total typeOf rty scope
      (fun v hv => htypes v (hscope_sub v hv))
  obtain ⟨c2, hc2, hc2sub, hc2len⟩ :=
    filterByContains_total typeOf rty
      (ScopeAnalyzer.get_visible_variables scopes) htypes
  constructor
  · intro hvis
    unfold Program.random_variable_of_type
    rw [hs]
    simp only [Option.bind_eq_bind, Option.some_bind, eq_self_iff_true,
      if_true, ← hrty, hc1]
    by_cases hemp : c1.isEmpty = true
    · rw [if_pos hemp, hc2]
      simp only [Option.some_bind]
      simp only [(by decide : (Mode.Free == Mode.Strict) = false),
        Bool.and_false, Bool.false_eq_true, if_false]
      by_cases hemp2 : c2.isEmpty = true
      · rw [if_pos hemp2]
        obtain ⟨x, hx⟩ := random_element_some s
          (ScopeAnalyzer.get_visible_variables scopes) hvis hlen
        exact ⟨x, by rw [hx]; rfl⟩
      · rw [if_neg hemp2]
        have hc2ne : c2 ≠ [] := by
          intro hcon
          exact hemp2 (by simp [hcon])
        obtain ⟨x, hx⟩ := random_element_some s c2 hc2ne (by omega)
        exact ⟨x, by rw [hx]; rfl⟩
    · rw [if_neg hemp]
      simp only [Option.pure_def, Option.some_bind]
      simp only [(by decide : (Mode.Free == Mode.Strict) = false),
        Bool.and_false, Bool.false_eq_true, if_false]
      rw [if_neg hemp]
      have hc1ne : c1 ≠ [] := by
        intro hcon
        exact hemp (by simp [hcon])
      have hle := scope_length_le_visible scopes scope hmem
      obtain ⟨x, hx⟩ := random_element_some s c1 hc1ne (by omega)
      exact ⟨x, by rw [hx]; rfl⟩
  · intro hvisnil
    have hscope_nil : scope = [] := by
      cases hsc : scope with
      | nil => rfl
      | cons a t =>
          have := hscope_sub a (by rw [hsc]; exact List.mem_cons_self a t)
          rw [hvisnil] at this
          exact absurd this (List.not_mem_nil a)
    unfold Program.random_variable_of_type
    rw [hs, hscope_nil]
    simp only [Option.bind_eq_bind, Option.some_bind, eq_self_iff_true,
      if_true, ← hrty]
    rw [(rfl : Program.filterByContains typeOf rty [] = some [])]
    simp only [Option.some_bind, List.isEmpty_nil, eq_self_iff_true, if_true,
      hvisnil]
    rw [(rfl : Program.filterByContains typeOf rty [] = some [])]
    simp only [Option.some_bind,
      (by decide : (Mode.Free == Mode.Strict) = false),
      Bool.and_false, Bool.false_eq_true, if_false, List.isEmpty_nil,
      eq_self_iff_true, if_true]
    rfl

theorem random_variable_free_selection_witness :
    ∃ v, Program.random_variable_of_type oneIntMap [[0]] (fun _ => true) 7
        types.Float Mode.Free = some (some v) :=
  (random_variable_free_selection oneIntMap [[0]] (fun _ => true) 7
      types.Float (by decide) (by decide) (by decide)).1 (by decide)

end Zebra
